import Mathlib

/-!
Verification of the chia gaming tracker (src/index.js): a shallow embedding of
the room registry, its announce/query/scrape endpoints, the rate limiter with
IP blocking, and the replay-nonce guard, together with theorems settling the
frozen claims about the specification.

Conventions of the embedding:
- All timestamps are milliseconds as natural numbers (JS Date.now()).
- JS `undefined` / `null` / value distinctions on request fields are modelled
  by the `JVal` type below; JS truthiness of a string is nonemptiness, of a
  number is nonzeroness.
- JS Maps are modelled as association lists in insertion order (Map.set on an
  existing key keeps its position, on a new key appends; Map.delete removes
  the key; iteration follows insertion order). A Set of strings is a list in
  insertion order without duplicates.
- Announcement fields are modelled within the space of well-typed JSON values
  (strings / string-or-null / numbers / booleans per field): the typeof
  branches of the validator that reject non-string etc. payloads fall outside
  this space and are noted where they occur.
- Core string helpers (toLowerCase, startsWith, includes, trim) are modelled
  as executable functions on the character data of the string, ASCII-faithful
  to the JS originals.
-/

namespace GamingTracker

/-- A JSON field value that can be absent (`undefined`), `null`, or present. -/
inductive JVal (α : Type) where
  | undef : JVal α
  | null : JVal α
  | val : α → JVal α
deriving DecidableEq, Repr

namespace JVal

/-- JS truthiness of a string-valued field: present and nonempty. -/
def strTruthy : JVal String → Bool
  | .val s => !(s == "")
  | _ => false

/-- JS truthiness of a number-valued field: present and nonzero. -/
def natTruthy : JVal Nat → Bool
  | .val n => !(n == 0)
  | _ => false

/-- The string carried by the field, with a default for the non-value cases
(used only after validation has guaranteed the field is a truthy string). -/
def getStrD : JVal String → String → String
  | .val s, _ => s
  | _, d => d

/-- `x || null` on a string field: a truthy string stays, everything else
becomes `null` (`none`). -/
def orNull : JVal String → Option String
  | .val s => if s == "" then none else some s
  | _ => none

/-- `data.f !== undefined ? data.f : prior` on a nullable string field. -/
def mergeOpt : JVal String → Option String → Option String
  | .undef, prior => prior
  | .null, _ => none
  | .val s, _ => some s

/-- The field is neither `undefined` nor `null`. -/
def isVal : JVal α → Bool
  | .val _ => true
  | _ => false

end JVal

/-- ASCII model of JS `String.prototype.toLowerCase`. -/
def jsToLower (s : String) : String := ⟨s.data.map Char.toLower⟩

/-- JS `String.prototype.startsWith`. -/
def jsStartsWith (s pre : String) : Bool := pre.data.isPrefixOf s.data

/-- Contiguous-sublist test on character lists (JS `includes` on strings). -/
def charInfixOf : List Char → List Char → Bool
  | _, [] => false
  | n, c :: cs => n.isPrefixOf (c :: cs) || charInfixOf n cs

/-- JS `hay.includes(needle)`: the empty needle is found in every string. -/
def jsIncludes (hay needle : String) : Bool :=
  needle == "" || charInfixOf needle.data hay.data

/-- JS `s.trim().length === 0`: the string is all whitespace. -/
def jsTrimEmpty (s : String) : Bool := s.data.all Char.isWhitespace

/-- Character class of the roomId regex `[a-zA-Z0-9_-]`. -/
def roomIdChar (c : Char) : Bool := c.isAlphanum || c == '-' || c == '_'

/-!
Configuration: values read from the environment with defaults in src/index.js
lines 31-56. `urlOk` stands in for the platform URL parser consulted by
`new URL(data.appBaseUrl)` (an external collaborator of the validator).
-/

structure Config where
  peerTimeout : Nat
  rateLimitMaxRequests : Nat
  rateLimitMaxAnnounces : Nat
  disableRateLimit : Bool
  maxViolations : Nat
  blockDuration : Nat
  blockedIPsPerm : List String
  urlOk : String → Bool

/-- `ANNOUNCE_INTERVAL` (line 33). -/
def ANNOUNCE_INTERVAL : Nat := 60

/-- `RATE_LIMIT_WINDOW` (line 39): one minute in milliseconds. -/
def RATE_LIMIT_WINDOW : Nat := 60 * 1000

/-- `MAX_ROOMS` (line 36): hard room-registry capacity. -/
def MAX_ROOMS : Nat := 100

/-- `MAX_RATE_LIMIT_ENTRIES` (line 45): hard cap on the rate limit map. -/
def MAX_RATE_LIMIT_ENTRIES : Nat := 1000

/-- `MAX_NONCES` (line 56): hard cap on the used-nonce set. -/
def MAX_NONCES : Nat := 5000

/-- `MAX_ROOM_ID_LENGTH` (line 60). -/
def MAX_ROOM_ID_LENGTH : Nat := 100

/-- `MAX_NAME_LENGTH` (line 61). -/
def MAX_NAME_LENGTH : Nat := 50

/-- A simple scheme check standing in for the platform URL parser. -/
def simpleUrlOk (s : String) : Bool :=
  jsStartsWith s "http://" || jsStartsWith s "https://"

/-- The defaults of src/index.js lines 35-50 with rate limiting enabled. -/
def defaultConfig : Config :=
  { peerTimeout := 600
    rateLimitMaxRequests := 120
    rateLimitMaxAnnounces := 20
    disableRateLimit := false
    maxViolations := 10
    blockDuration := 5 * 60 * 1000
    blockedIPsPerm := []
    urlOk := simpleUrlOk }

/-!
Room records, as created by POST /announce (src/index.js lines 690-725).
Nullable fields are `Option String` with `none` for JS `null`.
-/

structure Room where
  roomId : String
  gameType : Option String
  status : String
  appBaseUrl : String
  public : Bool
  player1Name : String
  player1WalletAddress : String
  player1WalletPuzzleHash : Option String
  player1PublicKey : Option String
  player1IdentityPublicKey : Option String
  player1IdentityAddress : Option String
  player1PeerId : String
  player2Name : Option String
  player2WalletAddress : Option String
  player2WalletPuzzleHash : Option String
  player2PublicKey : Option String
  player2IdentityPublicKey : Option String
  player2IdentityAddress : Option String
  player2PeerId : Option String
  stateChannelCoinId : Option String
  wagerAmount : Nat
  activeGameId : Option String
  createdAt : Nat
  updatedAt : Nat
deriving DecidableEq, Repr

/-- Body of a POST /announce request, in the well-typed field space. -/
structure AnnounceData where
  roomId : JVal String
  gameType : JVal String
  status : JVal String
  appBaseUrl : JVal String
  public : JVal Bool
  player1Name : JVal String
  player1WalletAddress : JVal String
  player1WalletPuzzleHash : JVal String
  player1PublicKey : JVal String
  player1IdentityPublicKey : JVal String
  player1IdentityAddress : JVal String
  player1PeerId : JVal String
  player2Name : JVal String
  player2WalletAddress : JVal String
  player2WalletPuzzleHash : JVal String
  player2PublicKey : JVal String
  player2IdentityPublicKey : JVal String
  player2IdentityAddress : JVal String
  player2PeerId : JVal String
  stateChannelCoinId : JVal String
  wagerAmount : JVal Nat
  activeGameId : JVal String
  timestamp : JVal Nat
  nonce : JVal String
  createdAt : JVal Nat
deriving DecidableEq, Repr

/-!
Validation of announcements: src/index.js lines 261-425. Each helper mirrors
one field block of `validateAnnouncement`, producing its error messages in
source order. The `typeof`-mismatch branches for payloads outside the
well-typed field space have no counterpart here.
-/

/-- The `validGameTypes` whitelist (line 274). -/
def validGameTypes : List String :=
  ["rockpaperscissors", "calpoker", "battleship", "tictactoe"]

/-- The `validStatuses` whitelist (line 388). -/
def validStatuses : List String := ["waiting", "active", "finished", "cancelled"]

/-- roomId checks (lines 265-271). -/
def roomIdErrors (v : JVal String) : List String :=
  match v with
  | .val s =>
      if s == "" then ["Missing or invalid roomId"]
      else if MAX_ROOM_ID_LENGTH < s.length then ["roomId too long (max 100 characters)"]
      else if !(s.data.all roomIdChar) then
        ["roomId contains invalid characters (alphanumeric, dash, underscore only)"]
      else []
  | _ => ["Missing or invalid roomId"]

/-- gameType checks (lines 274-281): null and undefined are both allowed. -/
def gameTypeErrors (v : JVal String) : List String :=
  match v with
  | .val s =>
      if !(validGameTypes.contains (jsToLower s)) then
        ["Invalid gameType. Must be one of: rockpaperscissors, calpoker, battleship, tictactoe or null"]
      else []
  | _ => []

/-- player1Name checks (lines 285-291). -/
def player1NameErrors (v : JVal String) : List String :=
  match v with
  | .val s =>
      if s == "" then ["Missing or invalid player1Name"]
      else if MAX_NAME_LENGTH < s.length then ["player1Name too long (max 50 characters)"]
      else if jsTrimEmpty s then ["player1Name cannot be empty"]
      else []
  | _ => ["Missing or invalid player1Name"]

/-- player1WalletAddress checks (lines 294-300). -/
def player1WalletErrors (v : JVal String) : List String :=
  match v with
  | .val s =>
      if s == "" then ["Missing or invalid player1WalletAddress"]
      else if !(jsStartsWith s "xch1") && !(jsStartsWith s "txch1") then
        ["Invalid wallet address format (must start with xch1 or txch1)"]
      else if 100 < s.length then ["Wallet address too long"]
      else []
  | _ => ["Missing or invalid player1WalletAddress"]

/-- Shared shape of the optional bounded-length string checks. -/
def optMaxLenErrors (v : JVal String) (bound : Nat) (msg : String) : List String :=
  match v with
  | .val s => if bound < s.length then [msg] else []
  | _ => []

/-- player1PeerId checks (lines 331-335). -/
def player1PeerIdErrors (v : JVal String) : List String :=
  match v with
  | .val s =>
      if s == "" then ["Missing or invalid player1PeerId"]
      else if 200 < s.length then ["player1PeerId too long (max 200 characters)"]
      else []
  | _ => ["Missing or invalid player1PeerId"]

/-- appBaseUrl checks (lines 338-346); `urlOk` stands in for `new URL`. -/
def appBaseUrlErrors (urlOk : String → Bool) (v : JVal String) : List String :=
  match v with
  | .val s =>
      if s == "" then ["Missing or invalid appBaseUrl"]
      else if !(urlOk s) then ["appBaseUrl must be a valid URL"]
      else []
  | _ => ["Missing or invalid appBaseUrl"]

/-- player2WalletAddress checks (lines 355-361). -/
def player2WalletErrors (v : JVal String) : List String :=
  match v with
  | .val s =>
      if !(jsStartsWith s "xch1") && !(jsStartsWith s "txch1") then
        ["Invalid player2WalletAddress format (must start with xch1 or txch1)"]
      else []
  | _ => []

/-- wagerAmount checks (lines 378-385): `parseInt(null)` is NaN, a Nat value
is a non-negative integer, and 10^12 mojos is the sanity bound. -/
def wagerAmountErrors (v : JVal Nat) : List String :=
  match v with
  | .undef => []
  | .null => ["Invalid wagerAmount (must be non-negative integer)"]
  | .val n => if 1000000000000 < n then ["wagerAmount too large"] else []

/-- status checks (lines 388-391): only a truthy status is checked. -/
def statusErrors (v : JVal String) : List String :=
  match v with
  | .val s =>
      if s == "" then []
      else if !(validStatuses.contains s) then
        ["Invalid status. Must be one of: waiting, active, finished, cancelled"]
      else []
  | _ => []

/-- public-flag checks (lines 394-396): `typeof null` is not `'boolean'`. -/
def publicFlagErrors (v : JVal Bool) : List String :=
  match v with
  | .null => ["Invalid public flag (must be boolean)"]
  | _ => []

/-- timestamp checks (lines 399-404): a truthy timestamp must be within 30
seconds of the server clock; the Nat sum of both truncated differences is the
absolute difference. -/
def timestampErrors (now : Nat) (v : JVal Nat) : List String :=
  match v with
  | .val t =>
      if t == 0 then []
      else if 30000 < (now - t) + (t - now) then
        ["Request timestamp too far from server time"]
      else []
  | _ => []

/-- Nonce checks (lines 406-422): a truthy nonce that is already recorded is
a replay error; otherwise it is recorded, evicting the oldest (first
inserted) nonce when the set is at `MAX_NONCES` capacity. Returns the error
messages and the updated nonce set. The per-nonce `setTimeout` cleanup is a
timer outside this state model. -/
def nonceCheck (nonces : List String) (v : JVal String) : List String × List String :=
  match v with
  | .val s =>
      if s == "" then ([], nonces)
      else if nonces.contains s then
        (["Duplicate nonce (replay attack detected)"], nonces)
      else if MAX_NONCES ≤ nonces.length then ([], nonces.tail ++ [s])
      else ([], nonces ++ [s])
  | _ => ([], nonces)

/-- `validateAnnouncement(data)` (lines 261-425): all error messages in
source order, together with the updated nonce set (the nonce is recorded as
a side effect even when other fields produce errors). -/
def validateAnnouncement (cfg : Config) (data : AnnounceData) (now : Nat)
    (nonces : List String) : List String × List String :=
  let nres := nonceCheck nonces data.nonce
  (roomIdErrors data.roomId
    ++ gameTypeErrors data.gameType
    ++ player1NameErrors data.player1Name
    ++ player1WalletErrors data.player1WalletAddress
    ++ optMaxLenErrors data.player1WalletPuzzleHash 100
        "player1WalletPuzzleHash too long"
    ++ optMaxLenErrors data.player1PublicKey 200
        "Invalid player1PublicKey (must be string, max 200 chars)"
    ++ optMaxLenErrors data.player1IdentityPublicKey 200
        "Invalid player1IdentityPublicKey (must be string, max 200 chars)"
    ++ optMaxLenErrors data.player1IdentityAddress 100
        "Invalid player1IdentityAddress (must be string, max 100 chars)"
    ++ player1PeerIdErrors data.player1PeerId
    ++ appBaseUrlErrors cfg.urlOk data.appBaseUrl
    ++ optMaxLenErrors data.player2Name 50
        "Invalid player2Name (must be string, max 50 chars, or null)"
    ++ player2WalletErrors data.player2WalletAddress
    ++ optMaxLenErrors data.stateChannelCoinId 100
        "Invalid stateChannelCoinId (must be string, max 100 chars, or null)"
    ++ optMaxLenErrors data.activeGameId 200
        "Invalid activeGameId (must be string, max 200 chars, or null)"
    ++ wagerAmountErrors data.wagerAmount
    ++ statusErrors data.status
    ++ publicFlagErrors data.public
    ++ timestampErrors now data.timestamp
    ++ nres.1, nres.2)

/-!
JS Map operations on association lists in insertion order.
-/

/-- `Map.set(k, v)`: an existing key keeps its position, a new key appends. -/
def setAssoc {α : Type} (k : String) (v : α) (m : List (String × α)) :
    List (String × α) :=
  if m.any (fun p => p.1 == k) then
    m.map (fun p => bif p.1 == k then (k, v) else p)
  else m ++ [(k, v)]

/-- `Map.delete(k)` (keys are unique in a Map). -/
def delAssoc {α : Type} (k : String) (m : List (String × α)) :
    List (String × α) :=
  m.filter (fun p => !(p.1 == k))

/-- In-place mutation of the object stored under `k`, visible in the map only
while the key is still present. -/
def updIfPresent {α : Type} (k : String) (v : α) (m : List (String × α)) :
    List (String × α) :=
  m.map (fun p => bif p.1 == k then (k, v) else p)

/-!
The room registry and POST /announce (src/index.js lines 627-746).
-/

/-- Registry plus replay-guard state mutated by POST /announce. -/
structure TrackerState where
  rooms : List (String × Room)
  nonces : List String
deriving DecidableEq

/-- Outcome of POST /announce (HTTP 200 with the room, or 400). -/
inductive AnnounceResult where
  | ok : Room → AnnounceResult
  | validationError : List String → AnnounceResult
deriving DecidableEq

/-- Key of the entry evicted by the capacity check (lines 641-646): the sort
by ascending `createdAt` is stable, so the evicted entry is the first in
insertion order among those with minimal `createdAt`. -/
def oldestRoomKey (rooms : List (String × Room)) : Option String :=
  match rooms with
  | [] => none
  | p :: rest =>
      some (rest.foldl
        (fun best q => if q.2.createdAt < best.2.createdAt then q else best) p).1

/-- The capacity-eviction body (lines 641-646): delete the oldest room. -/
def evictOldest (rooms : List (String × Room)) : List (String × Room) :=
  match oldestRoomKey rooms with
  | none => rooms
  | some k => delAssoc k rooms

/-- The update branch of POST /announce (lines 652-687): field-by-field merge
into the existing record. `public` assigned from `null` and `wagerAmount`
assigned from `null` are unreachable after validation and keep the prior
value here. -/
def updateRoom (room : Room) (data : AnnounceData) (now : Nat) : Room :=
  { roomId := room.roomId
    gameType :=
      match data.gameType with
      | .undef => room.gameType
      | .null => none
      | .val s => some s
    status := if data.status.strTruthy then data.status.getStrD "" else room.status
    appBaseUrl :=
      if data.appBaseUrl.strTruthy then data.appBaseUrl.getStrD ""
      else room.appBaseUrl
    public := match data.public with | .val b => b | _ => room.public
    player1Name :=
      if data.player1Name.strTruthy then data.player1Name.getStrD ""
      else room.player1Name
    player1WalletAddress :=
      if data.player1WalletAddress.strTruthy then data.player1WalletAddress.getStrD ""
      else room.player1WalletAddress
    player1WalletPuzzleHash :=
      if data.player1WalletPuzzleHash.strTruthy then
        some (data.player1WalletPuzzleHash.getStrD "")
      else room.player1WalletPuzzleHash
    player1PublicKey :=
      if data.player1PublicKey.strTruthy then some (data.player1PublicKey.getStrD "")
      else room.player1PublicKey
    player1IdentityPublicKey :=
      if data.player1IdentityPublicKey.strTruthy then
        some (data.player1IdentityPublicKey.getStrD "")
      else room.player1IdentityPublicKey
    player1IdentityAddress :=
      if data.player1IdentityAddress.strTruthy then
        some (data.player1IdentityAddress.getStrD "")
      else room.player1IdentityAddress
    player1PeerId :=
      if data.player1PeerId.strTruthy then data.player1PeerId.getStrD ""
      else room.player1PeerId
    player2Name := data.player2Name.mergeOpt room.player2Name
    player2WalletAddress := data.player2WalletAddress.mergeOpt room.player2WalletAddress
    player2WalletPuzzleHash :=
      data.player2WalletPuzzleHash.mergeOpt room.player2WalletPuzzleHash
    player2PublicKey := data.player2PublicKey.mergeOpt room.player2PublicKey
    player2IdentityPublicKey :=
      data.player2IdentityPublicKey.mergeOpt room.player2IdentityPublicKey
    player2IdentityAddress :=
      data.player2IdentityAddress.mergeOpt room.player2IdentityAddress
    player2PeerId := data.player2PeerId.mergeOpt room.player2PeerId
    stateChannelCoinId := data.stateChannelCoinId.mergeOpt room.stateChannelCoinId
    wagerAmount := match data.wagerAmount with | .val n => n | _ => room.wagerAmount
    activeGameId := data.activeGameId.mergeOpt room.activeGameId
    createdAt := room.createdAt
    updatedAt := now }

/-- The creation branch of POST /announce (lines 689-727). -/
def createRoom (data : AnnounceData) (now : Nat) : Room :=
  { roomId := data.roomId.getStrD ""
    gameType := data.gameType.orNull
    status := if data.status.strTruthy then data.status.getStrD "" else "waiting"
    appBaseUrl := data.appBaseUrl.getStrD ""
    public := match data.public with | .val b => b | _ => true
    player1Name := data.player1Name.getStrD ""
    player1WalletAddress := data.player1WalletAddress.getStrD ""
    player1WalletPuzzleHash := data.player1WalletPuzzleHash.orNull
    player1PublicKey := data.player1PublicKey.orNull
    player1IdentityPublicKey := data.player1IdentityPublicKey.orNull
    player1IdentityAddress := data.player1IdentityAddress.orNull
    player1PeerId := data.player1PeerId.getStrD ""
    player2Name := data.player2Name.orNull
    player2WalletAddress := data.player2WalletAddress.orNull
    player2WalletPuzzleHash := data.player2WalletPuzzleHash.orNull
    player2PublicKey := data.player2PublicKey.orNull
    player2IdentityPublicKey := data.player2IdentityPublicKey.orNull
    player2IdentityAddress := data.player2IdentityAddress.orNull
    player2PeerId := data.player2PeerId.orNull
    stateChannelCoinId := data.stateChannelCoinId.orNull
    wagerAmount := match data.wagerAmount with | .val n => n | _ => 0
    activeGameId := data.activeGameId.orNull
    createdAt := match data.createdAt with | .val t => if t == 0 then now else t | _ => now
    updatedAt := now }

/-- POST /announce (lines 627-746): validate (recording the nonce), then run
the capacity check, then upsert. Rejected announcements leave the registry
untouched but keep the nonce side effect. -/
def announce (cfg : Config) (st : TrackerState) (data : AnnounceData)
    (now : Nat) : AnnounceResult × TrackerState :=
  let vres := validateAnnouncement cfg data now st.nonces
  if vres.1 = [] then
    let rooms1 :=
      if MAX_ROOMS ≤ st.rooms.length then evictOldest st.rooms else st.rooms
    let rid := data.roomId.getStrD ""
    match rooms1.lookup rid with
    | some room =>
        let updated := updateRoom room data now
        (.ok updated, { rooms := updIfPresent rid updated rooms1, nonces := vres.2 })
    | none =>
        let created := createRoom data now
        (.ok created, { rooms := rooms1 ++ [(rid, created)], nonces := vres.2 })
  else (.validationError vres.1, { st with nonces := vres.2 })

/-!
Room expiry and the read endpoints (src/index.js lines 514-801) and the
periodic cleanup tick (lines 874-907).
-/

/-- `room.updatedAt || room.createdAt` (lines 528, 757, 880). -/
def lastActivity (r : Room) : Nat :=
  if r.updatedAt == 0 then r.createdAt else r.updatedAt

/-- The shared expiry predicate: last activity is set and more than
`PEER_TIMEOUT` seconds before now (lines 529, 758, 881). -/
def isExpired (cfg : Config) (r : Room) (now : Nat) : Bool :=
  !(lastActivity r == 0) && decide (lastActivity r + cfg.peerTimeout * 1000 < now)

/-- The expired-room removal loop shared verbatim by GET /announce (lines
526-533), GET /scrape (lines 756-761) and the periodic cleanup tick (lines
878-886): deleting entries of a Map while iterating it visits every entry,
so the loop keeps exactly the non-expired records. -/
def cleanExpiredRooms (cfg : Config) (rooms : List (String × Room))
    (now : Nat) : List (String × Room) :=
  rooms.filter (fun p => !(isExpired cfg p.2 now))

/-- Parsed and validated query parameters of GET /announce (lines 536-544):
`maxWager = none` is the `Infinity` default. -/
structure QueryParams where
  gameType : String
  status : String
  search : String
  minWager : Nat
  maxWager : Option Nat
  sort : String
  offset : Nat
  limit : Nat
  includePrivate : Bool
deriving DecidableEq

/-- The search filter (lines 571-580): case-insensitive substring match on
roomId and both player names. The `player1?.name` and `player2?.name`
sub-objects are never set on rooms created by this server, so those
disjuncts are always false. -/
def matchesSearch (search : String) (r : Room) : Bool :=
  let sl := jsToLower search
  (!(r.roomId == "") && jsIncludes (jsToLower r.roomId) sl)
    || (!(r.player1Name == "") && jsIncludes (jsToLower r.player1Name) sl)
    || (match r.player2Name with
        | some n => !(n == "") && jsIncludes (jsToLower n) sl
        | none => false)

/-- The filter pipeline of GET /announce in source order (lines 549-580). -/
def filterRooms (ps : QueryParams) (l : List Room) : List Room :=
  let l1 := if ps.includePrivate then l else l.filter (fun r => r.public != false)
  let l2 :=
    if !(ps.gameType == "") && !(ps.gameType == "all") then
      l1.filter (fun r => r.gameType == some ps.gameType)
    else l1
  let l3 :=
    if !(ps.status == "") && !(ps.status == "all") then
      l2.filter (fun r => r.status == ps.status)
    else l2
  let l4 := l3.filter (fun r =>
    decide (ps.minWager ≤ r.wagerAmount) &&
      (match ps.maxWager with
       | none => true
       | some mw => decide (r.wagerAmount ≤ mw)))
  if !(ps.search == "") then l4.filter (matchesSearch ps.search) else l4

/-- The sort step (lines 583-597); JS `Array.prototype.sort` is stable, and
the statements below do not depend on the order of ties. -/
def sortRooms (sort : String) (l : List Room) : List Room :=
  if sort == "oldest" then
    l.insertionSort (fun a b => a.createdAt ≤ b.createdAt)
  else if sort == "wager_high" then
    l.insertionSort (fun a b => b.wagerAmount ≤ a.wagerAmount)
  else if sort == "wager_low" then
    l.insertionSort (fun a b => a.wagerAmount ≤ b.wagerAmount)
  else l.insertionSort (fun a b => b.createdAt ≤ a.createdAt)

/-- The post-filter post-sort list that pagination slices. -/
def filteredSorted (ps : QueryParams) (l : List Room) : List Room :=
  sortRooms ps.sort (filterRooms ps l)

/-- Filter, sort and paginate (lines 547-614): the page is
`roomList.slice(offset, offset + limit)` and `total` the filtered length. -/
def queryCore (ps : QueryParams) (l : List Room) : List Room × Nat :=
  let sorted := filteredSorted ps l
  ((sorted.drop ps.offset).take ps.limit, sorted.length)

/-- GET /announce (lines 514-622): sweep expired rooms, then query. -/
def getAnnounce (cfg : Config) (st : TrackerState) (ps : QueryParams)
    (now : Nat) : (List Room × Nat) × TrackerState :=
  let rooms2 := cleanExpiredRooms cfg st.rooms now
  (queryCore ps (rooms2.map (fun p => p.2)), { st with rooms := rooms2 })

/-- The statistics computed by GET /scrape (lines 763-793). -/
structure ScrapeStats where
  totalRooms : Nat
  byGameType : List (String × Nat)
  byStatus : List (String × Nat)
deriving DecidableEq

/-- `obj[k] = (obj[k] || 0) + 1` on a counting object. -/
def bumpCount (k : String) (m : List (String × Nat)) : List (String × Nat) :=
  match m.lookup k with
  | some n => setAssoc k (n + 1) m
  | none => m ++ [(k, 1)]

/-- The aggregation loop of GET /scrape (lines 766-781). -/
def scrapeStats (l : List Room) : ScrapeStats :=
  { totalRooms := l.length
    byGameType := l.foldl
      (fun m r =>
        bumpCount
          (match r.gameType with
           | some s => if s == "" then "unknown" else s
           | none => "unknown") m) []
    byStatus := l.foldl
      (fun m r => bumpCount (if r.status == "" then "unknown" else r.status) m) [] }

/-- GET /scrape (lines 751-801): sweep expired rooms, then aggregate. -/
def scrape (cfg : Config) (st : TrackerState) (now : Nat) :
    ScrapeStats × TrackerState :=
  let rooms2 := cleanExpiredRooms cfg st.rooms now
  (scrapeStats (rooms2.map (fun p => p.2)), { st with rooms := rooms2 })

/-- The periodic room cleanup tick (lines 874-907): remove expired rooms,
then if the hard limit is still exceeded delete the oldest rooms down to
`MAX_ROOMS`. -/
def roomCleanupTick (cfg : Config) (rooms : List (String × Room))
    (now : Nat) : List (String × Room) :=
  let r1 := cleanExpiredRooms cfg rooms now
  if MAX_ROOMS < r1.length then
    let sorted := r1.insertionSort (fun a b => a.2.createdAt ≤ b.2.createdAt)
    (sorted.take (r1.length - MAX_ROOMS)).foldl (fun acc p => delAssoc p.1 acc) r1
  else r1

/-!
Rate limiting and IP blocking (src/index.js lines 120-246) and their
periodic cleanup sweeps (lines 911-945).
-/

/-- One entry of `rateLimitMap` (line 44). -/
structure RLEntry where
  count : Nat
  announceCount : Nat
  resetTime : Nat
  violations : Nat
deriving DecidableEq, Repr

/-- One entry of `blockedIPs` (line 51). -/
structure BlockInfo where
  blockedUntil : Nat
  reason : String
deriving DecidableEq, Repr

/-- The abuse-control state: the rate limit map and the temporary block map
(the permanent `BLOCKED_IPS` set lives in the configuration). -/
structure RLState where
  rateLimitMap : List (String × RLEntry)
  blockedIPs : List (String × BlockInfo)
deriving DecidableEq, Repr

/-- The localhost identities exempt from rate limiting and from new blocks
(lines 144, 179). -/
def isLocalhostIP (ip : String) : Bool :=
  ip == "127.0.0.1" || ip == "::1" || ip == "::ffff:127.0.0.1" || ip == "localhost"

/-- `isIPBlocked(ip)` (lines 120-137): permanent list first, then the
temporary map with lazy removal of expired entries. Returns the blocking
reason if blocked, and the possibly-updated temporary map. -/
def isIPBlockedChk (cfg : Config) (blocked : List (String × BlockInfo))
    (ip : String) (now : Nat) : Option String × List (String × BlockInfo) :=
  if cfg.blockedIPsPerm.contains ip then (some "Permanently blocked", blocked)
  else
    match blocked.lookup ip with
    | some info =>
        if now < info.blockedUntil then (some info.reason, blocked)
        else (none, delAssoc ip blocked)
    | none => (none, blocked)

/-- `blockIP(ip, reason, duration)` (lines 142-154): localhost is never
blocked; otherwise insert or overwrite the temporary entry. -/
def blockIP (blocked : List (String × BlockInfo)) (ip reason : String)
    (duration now : Nat) : List (String × BlockInfo) :=
  if isLocalhostIP ip then blocked
  else setAssoc ip { blockedUntil := now + duration, reason := reason } blocked

/-- A fresh rate-limit entry (lines 202-207). -/
def freshEntry (now : Nat) : RLEntry :=
  { count := 0, announceCount := 0, resetTime := now + RATE_LIMIT_WINDOW,
    violations := 0 }

/-- The hard limit on `rateLimitMap` (lines 212-220): when the size exceeds
the cap, drop the oldest-by-`resetTime` entries (stable ascending sort, then
delete the first `size - cap`). -/
def enforceMapLimit (m : List (String × RLEntry)) : List (String × RLEntry) :=
  if MAX_RATE_LIMIT_ENTRIES < m.length then
    let sorted := m.insertionSort (fun a b => a.2.resetTime ≤ b.2.resetTime)
    (sorted.take (m.length - MAX_RATE_LIMIT_ENTRIES)).foldl
      (fun acc p => delAssoc p.1 acc) m
  else m

/-- Outcome of the `rateLimit` middleware for one request. -/
inductive RLOutcome where
  | allowed : RLOutcome
  | rateLimited : Nat → RLOutcome
  | blocked : String → RLOutcome
deriving DecidableEq, Repr

/-- The `rateLimit` middleware (lines 169-246) for a request from `ip` at
time `now`; `isPost` selects the announce counter. The counter object is
mutated in place, so its final value is visible in the map only if the
hard-limit eviction did not drop the key (`updIfPresent`). The retry-after
seconds are `Math.ceil((resetTime - now) / 1000)`. -/
def rateLimitStep (cfg : Config) (st : RLState) (ip : String) (isPost : Bool)
    (now : Nat) : RLOutcome × RLState :=
  if cfg.disableRateLimit then (.allowed, st)
  else if isLocalhostIP ip then
    match isIPBlockedChk cfg st.blockedIPs ip now with
    | (some reason, b2) => (.blocked reason, { st with blockedIPs := b2 })
    | (none, b2) => (.allowed, { st with blockedIPs := b2 })
  else
    match isIPBlockedChk cfg st.blockedIPs ip now with
    | (some reason, b2) => (.blocked reason, { st with blockedIPs := b2 })
    | (none, b2) =>
        let e0 := st.rateLimitMap.lookup ip
        let entry :=
          match e0 with
          | some d => if d.resetTime < now then freshEntry now else d
          | none => freshEntry now
        let m1 :=
          match e0 with
          | some d =>
              if d.resetTime < now then setAssoc ip entry st.rateLimitMap
              else st.rateLimitMap
          | none => setAssoc ip entry st.rateLimitMap
        let m2 := enforceMapLimit m1
        let bumped :=
          if isPost then { entry with announceCount := entry.announceCount + 1 }
          else { entry with count := entry.count + 1 }
        let over :=
          if isPost then cfg.rateLimitMaxAnnounces < bumped.announceCount
          else cfg.rateLimitMaxRequests < bumped.count
        if over then
          let punished := { bumped with violations := bumped.violations + 1 }
          let b3 :=
            if cfg.maxViolations ≤ punished.violations then
              blockIP b2 ip
                (if isPost then "Excessive announce attempts" else "Excessive requests")
                cfg.blockDuration now
            else b2
          (.rateLimited ((bumped.resetTime - now + 999) / 1000),
            { rateLimitMap := updIfPresent ip punished m2, blockedIPs := b3 })
        else (.allowed, { rateLimitMap := updIfPresent ip bumped m2, blockedIPs := b2 })

/-- The periodic rate-limit decay sweep (lines 911-924): for every entry
whose window has expired, decrement its violations if positive, otherwise
drop the entry. -/
def rateLimitCleanupTick (m : List (String × RLEntry)) (now : Nat) :
    List (String × RLEntry) :=
  m.filterMap (fun p =>
    if p.2.resetTime < now then
      if 0 < p.2.violations then
        some (p.1, { p.2 with violations := p.2.violations - 1 })
      else none
    else some p)

/-- Request sequences from one identity: apply the middleware `n` times at
the same instant, threading the state. -/
def rlIterate (cfg : Config) (ip : String) (isPost : Bool) (now : Nat) :
    Nat → RLState → RLState
  | 0, st => st
  | n + 1, st => rlIterate cfg ip isPost now n (rateLimitStep cfg st ip isPost now).2

/-!
Concrete fixtures used by the closed counterexamples and witnesses below.
-/

/-- A request body with every field omitted. -/
def emptyAnnounce : AnnounceData :=
  { roomId := .undef, gameType := .undef, status := .undef, appBaseUrl := .undef
    public := .undef, player1Name := .undef, player1WalletAddress := .undef
    player1WalletPuzzleHash := .undef, player1PublicKey := .undef
    player1IdentityPublicKey := .undef, player1IdentityAddress := .undef
    player1PeerId := .undef, player2Name := .undef, player2WalletAddress := .undef
    player2WalletPuzzleHash := .undef, player2PublicKey := .undef
    player2IdentityPublicKey := .undef, player2IdentityAddress := .undef
    player2PeerId := .undef, stateChannelCoinId := .undef, wagerAmount := .undef
    activeGameId := .undef, timestamp := .undef, nonce := .undef, createdAt := .undef }

/-- A room record as stored after a valid creation. -/
def sampleRoom : Room :=
  { roomId := "r1", gameType := some "calpoker", status := "waiting"
    appBaseUrl := "https://crate.ink", public := true
    player1Name := "Alice", player1WalletAddress := "xch1abc"
    player1WalletPuzzleHash := some "hash1", player1PublicKey := some "pk1"
    player1IdentityPublicKey := none, player1IdentityAddress := none
    player1PeerId := "peer1", player2Name := none, player2WalletAddress := none
    player2WalletPuzzleHash := none, player2PublicKey := none
    player2IdentityPublicKey := none, player2IdentityAddress := none
    player2PeerId := none, stateChannelCoinId := none, wagerAmount := 1000
    activeGameId := none, createdAt := 1000, updatedAt := 2000 }

/-- A one-room registry with an empty nonce set. -/
def st1 : TrackerState := { rooms := [("r1", sampleRoom)], nonces := [] }

/-- An upsert for the existing room supplying only the status field. -/
def dataOnlyStatus : AnnounceData :=
  { emptyAnnounce with roomId := .val "r1", status := .val "active" }

/-- A mandatory-field-complete update for `rid` that sets the status to
active and supplies an explicit null for player1WalletPuzzleHash. -/
def dataUpdate (rid : String) : AnnounceData :=
  { emptyAnnounce with
      roomId := .val rid
      status := .val "active"
      player1Name := .val "Alice"
      player1WalletAddress := .val "xch1abc"
      player1PeerId := .val "peer1"
      appBaseUrl := .val "https://crate.ink"
      player1WalletPuzzleHash := .null }

/-- A valid creation request for a brand-new room. -/
def dataCreate (rid : String) : AnnounceData :=
  { emptyAnnounce with
      roomId := .val rid
      gameType := .val "calpoker"
      player1Name := .val "Bob"
      player1WalletAddress := .val "xch1new"
      player1PeerId := .val "peer9"
      appBaseUrl := .val "https://crate.ink"
      wagerAmount := .val 5000 }

/-- The i-th room of the full registry fixture: distinct ids and strictly
increasing creation times. -/
def mkRoomN (i : Nat) : Room :=
  { sampleRoom with
      roomId := "room" ++ toString i
      createdAt := 1000 + i
      updatedAt := 1000 + i }

/-- A registry holding exactly `MAX_ROOMS` rooms. -/
def reg100 : List (String × Room) :=
  (List.range MAX_ROOMS).map (fun i => ("room" ++ toString i, mkRoomN i))

/-- The full-registry tracker state. -/
def st100 : TrackerState := { rooms := reg100, nonces := [] }

/-- Default query parameters of GET /announce after parsing. -/
def psAll : QueryParams :=
  { gameType := "all", status := "all", search := "", minWager := 0
    maxWager := none, sort := "newest", offset := 0, limit := 50
    includePrivate := false }

/-- A recently active room. -/
def freshRoomW : Room :=
  { sampleRoom with roomId := "fresh", createdAt := 999000, updatedAt := 999000 }

/-- A room whose last activity is far in the past. -/
def oldRoomW : Room :=
  { sampleRoom with roomId := "old", createdAt := 1000, updatedAt := 1000 }

/-- A registry holding one expired and one live room. -/
def stW : TrackerState :=
  { rooms := [("old", oldRoomW), ("fresh", freshRoomW)], nonces := [] }

/-!
Lemmas about the association-list Map operations.
-/

theorem lookup_eq_none_iff {α : Type} (m : List (String × α)) (k : String) :
    m.lookup k = none ↔ ∀ p ∈ m, p.1 ≠ k := by
  induction m with
  | nil => simp [List.lookup]
  | cons p rest ih =>
      rcases p with ⟨k1, v1⟩
      by_cases h : k = k1
      · subst h; simp [List.lookup]
      · have hb : (k == k1) = false := beq_false_of_ne h
        simp only [List.lookup, hb, List.mem_cons, ih]
        constructor
        · intro hall q hq
          cases hq with
          | inl he => subst he; exact fun hc => h hc.symm
          | inr hm => exact hall q hm
        · intro hall q hq
          exact hall q (Or.inr hq)

theorem lookup_mem {α : Type} {m : List (String × α)} {k : String} {v : α}
    (h : m.lookup k = some v) : (k, v) ∈ m := by
  induction m with
  | nil => simp [List.lookup] at h
  | cons p rest ih =>
      rcases p with ⟨k1, v1⟩
      by_cases hk : k = k1
      · subst hk
        simp only [List.lookup, beq_self_eq_true] at h
        cases h
        exact List.mem_cons_self _ _
      · have hb : (k == k1) = false := beq_false_of_ne hk
        simp only [List.lookup, hb] at h
        exact List.mem_cons_of_mem _ (ih h)

theorem lookup_of_mem_nodup {α : Type} {m : List (String × α)} {k : String}
    {v : α} (h : (k, v) ∈ m) (hnd : (m.map Prod.fst).Nodup) :
    m.lookup k = some v := by
  induction m with
  | nil => simp at h
  | cons p rest ih =>
      rcases p with ⟨k1, v1⟩
      simp only [List.map_cons, List.nodup_cons] at hnd
      cases h with
      | head => simp [List.lookup]
      | tail _ hm =>
          have hk : k ≠ k1 := by
            intro he; subst he
            exact hnd.1 (List.mem_map.mpr ⟨(k, v), hm, rfl⟩)
          have hb : (k == k1) = false := beq_false_of_ne hk
          simp only [List.lookup, hb]
          exact ih hm hnd.2

theorem lookup_append_none {α : Type} {l1 : List (String × α)}
    (l2 : List (String × α)) {k : String} (h : l1.lookup k = none) :
    (l1 ++ l2).lookup k = l2.lookup k := by
  induction l1 with
  | nil => simp
  | cons p rest ih =>
      rcases p with ⟨k1, v1⟩
      by_cases hk : k = k1
      · subst hk; simp [List.lookup] at h
      · have hb : (k == k1) = false := beq_false_of_ne hk
        simp only [List.lookup, hb] at h
        simp only [List.cons_append, List.lookup, hb]
        exact ih h

theorem lookup_updIfPresent_some {α : Type} {m : List (String × α)}
    {k : String} {v0 : α} (v : α) (h : m.lookup k = some v0) :
    (updIfPresent k v m).lookup k = some v := by
  induction m with
  | nil => simp [List.lookup] at h
  | cons p rest ih =>
      rcases p with ⟨k1, v1⟩
      by_cases hk : k = k1
      · subst hk
        simp [updIfPresent, List.lookup]
      · have hb1 : (k == k1) = false := beq_false_of_ne hk
        have hb2 : (k1 == k) = false := beq_false_of_ne (fun he => hk he.symm)
        simp only [List.lookup, hb1] at h
        simp only [updIfPresent, List.map_cons, hb2, Bool.cond_false,
          List.lookup, hb1]
        exact ih h

theorem lookup_setAssoc_self {α : Type} (k : String) (v : α)
    (m : List (String × α)) : (setAssoc k v m).lookup k = some v := by
  unfold setAssoc
  by_cases hany : m.any (fun p => p.1 == k) = true
  · rw [if_pos hany]
    have : ∃ p ∈ m, p.1 = k := by
      rcases List.any_eq_true.mp hany with ⟨p, hp, hb⟩
      exact ⟨p, hp, by simpa using hb⟩
    rcases this with ⟨p0, hp0, hp0k⟩
    clear hany
    induction m with
    | nil => simp at hp0
    | cons q rest ih =>
        rcases q with ⟨k1, v1⟩
        by_cases hk : k1 = k
        · subst hk
          simp [List.lookup]
        · have hb1 : (k1 == k) = false := beq_false_of_ne hk
          have hb2 : (k == k1) = false := beq_false_of_ne (fun he => hk he.symm)
          simp only [List.map_cons, hb1, Bool.cond_false, List.lookup, hb2]
          rcases List.mem_cons.mp hp0 with he | hm
          · rw [he] at hp0k
            exact absurd hp0k hk
          · exact ih hm
  · rw [if_neg hany]
    have hnone : m.lookup k = none := by
      rw [lookup_eq_none_iff]
      intro p hp he
      exact hany (List.any_eq_true.mpr ⟨p, hp, by simp [he]⟩)
    rw [lookup_append_none _ hnone]
    simp [List.lookup]

theorem lookup_updIfPresent_ne {α : Type} (m : List (String × α))
    {k k' : String} (v : α) (h : k' ≠ k) :
    (updIfPresent k v m).lookup k' = m.lookup k' := by
  induction m with
  | nil => simp [updIfPresent]
  | cons p rest ih =>
      rcases p with ⟨k1, v1⟩
      by_cases hk : k1 = k
      · subst hk
        have hb : (k' == k1) = false := beq_false_of_ne h
        simp only [updIfPresent, List.map_cons, beq_self_eq_true,
          Bool.cond_true, List.lookup, hb]
        exact ih
      · have hb : (k1 == k) = false := beq_false_of_ne hk
        simp only [updIfPresent, List.map_cons, hb, Bool.cond_false,
          List.lookup]
        cases hbe : k' == k1 with
        | true => rfl
        | false => exact ih

theorem lookup_updIfPresent_none {α : Type} {m : List (String × α)}
    {k k' : String} (v : α) (h : m.lookup k' = none) :
    (updIfPresent k v m).lookup k' = none := by
  by_cases hk : k' = k
  · subst hk
    rw [lookup_eq_none_iff] at h ⊢
    intro p hp
    rcases List.mem_map.mp hp with ⟨q, hq, he⟩
    by_cases hq1 : q.1 = k'
    · exact absurd hq1 (h q hq)
    · have hb : (q.1 == k') = false := beq_false_of_ne hq1
      simp only [hb, Bool.cond_false] at he
      subst he; exact h q hq
  · rw [lookup_updIfPresent_ne _ _ hk]; exact h

theorem length_updIfPresent {α : Type} (k : String) (v : α)
    (m : List (String × α)) : (updIfPresent k v m).length = m.length := by
  simp [updIfPresent]

theorem lookup_delAssoc_self {α : Type} (k : String) (m : List (String × α)) :
    (delAssoc k m).lookup k = none := by
  rw [lookup_eq_none_iff]
  intro p hp
  have := List.of_mem_filter hp
  simpa using this

theorem lookup_delAssoc_ne {α : Type} (m : List (String × α)) {k k' : String}
    (h : k' ≠ k) : (delAssoc k m).lookup k' = m.lookup k' := by
  induction m with
  | nil => simp [delAssoc]
  | cons p rest ih =>
      rcases p with ⟨k1, v1⟩
      by_cases hk : k1 = k
      · subst hk
        have hb : (k' == k1) = false := beq_false_of_ne h
        simp only [delAssoc, List.filter_cons, beq_self_eq_true, Bool.not_true,
          Bool.false_eq_true, if_false, List.lookup, hb]
        exact ih
      · have hb : (k1 == k) = false := beq_false_of_ne hk
        simp only [delAssoc, List.filter_cons, hb, Bool.not_false, if_true,
          List.lookup]
        cases hbe : k' == k1 with
        | true => rfl
        | false => exact ih

theorem mem_delAssoc {α : Type} {k : String} {m : List (String × α)}
    {p : String × α} (h : p ∈ delAssoc k m) : p ∈ m :=
  List.mem_of_mem_filter h

theorem length_delAssoc_le {α : Type} (k : String) (m : List (String × α)) :
    (delAssoc k m).length ≤ m.length :=
  List.length_filter_le _ _

theorem length_delAssoc_of_mem {α : Type} {k : String} {v : α}
    {m : List (String × α)} (h : (k, v) ∈ m) :
    (delAssoc k m).length < m.length := by
  apply List.length_filter_lt_length_iff_exists.mpr
  exact ⟨(k, v), h, by simp⟩

theorem length_setAssoc_some {α : Type} {k : String} {v0 : α}
    {m : List (String × α)} (v : α) (h : m.lookup k = some v0) :
    (setAssoc k v m).length = m.length := by
  have hmem := lookup_mem h
  have hany : m.any (fun p => p.1 == k) = true :=
    List.any_eq_true.mpr ⟨(k, v0), hmem, by simp⟩
  simp [setAssoc, hany]

theorem length_setAssoc_none {α : Type} {k : String} {m : List (String × α)}
    (v : α) (h : m.lookup k = none) :
    (setAssoc k v m).length = m.length + 1 := by
  rw [lookup_eq_none_iff] at h
  have hany : m.any (fun p => p.1 == k) = false := by
    rw [List.any_eq_false]
    intro p hp
    simpa using h p hp
  simp [setAssoc, hany]

/-!
Claim C9: the replay guard accepts and records fresh nonces, rejects
recorded ones, and evicts one entry at capacity so insertion never blocks.
-/

theorem mem_nonceCheck_fresh {nonces : List String} {s : String} (hs : s ≠ "")
    (hfresh : nonces.contains s = false) : s ∈ (nonceCheck nonces (.val s)).2 := by
  have hsb : (s == "") = false := beq_false_of_ne hs
  unfold nonceCheck
  simp only [hsb, Bool.false_eq_true, if_false, hfresh]
  by_cases hcap : MAX_NONCES ≤ nonces.length
  · simp only [hcap, if_true]
    exact List.mem_append_right _ (List.mem_singleton.mpr rfl)
  · simp only [hcap, if_false]
    exact List.mem_append_right _ (List.mem_singleton.mpr rfl)

/-- C9: for every nonce value, submitting it while it is not recorded yields
no replay error and records it; submitting a recorded nonce yields the
duplicate error and leaves the set unchanged; when the set holds exactly
`MAX_NONCES` nonces, the oldest entry is evicted before inserting, the size
stays at `MAX_NONCES`, and the fresh nonce is still recorded. -/
theorem c9_replay_guard (nonces : List String) (s : String) (hs : s ≠ "") :
    (nonces.contains s = false →
      (nonceCheck nonces (.val s)).1 = [] ∧ s ∈ (nonceCheck nonces (.val s)).2) ∧
    (nonces.contains s = true →
      (nonceCheck nonces (.val s)).1 = ["Duplicate nonce (replay attack detected)"] ∧
      (nonceCheck nonces (.val s)).2 = nonces) ∧
    (nonces.contains s = false → nonces.length = MAX_NONCES →
      (nonceCheck nonces (.val s)).2 = nonces.tail ++ [s] ∧
      (nonceCheck nonces (.val s)).1 = [] ∧
      (nonceCheck nonces (.val s)).2.length = MAX_NONCES ∧
      s ∈ (nonceCheck nonces (.val s)).2) := by
  have hsb : (s == "") = false := beq_false_of_ne hs
  refine ⟨fun hfresh => ⟨?_, mem_nonceCheck_fresh hs hfresh⟩,
    fun hdup => ?_, fun hfresh hlen => ?_⟩
  · have hnm : s ∉ nonces := by simpa using hfresh
    unfold nonceCheck
    by_cases hcap : MAX_NONCES ≤ nonces.length <;> simp [hsb, hnm, hcap]
  · have hm : s ∈ nonces := by simpa using hdup
    unfold nonceCheck
    simp [hsb, hm]
  · have hnm : s ∉ nonces := by simpa using hfresh
    have hcap : MAX_NONCES ≤ nonces.length := le_of_eq hlen.symm
    have h2 : (nonceCheck nonces (.val s)).2 = nonces.tail ++ [s] := by
      unfold nonceCheck
      simp [hsb, hnm, hcap]
    have h1 : (nonceCheck nonces (.val s)).1 = [] := by
      unfold nonceCheck
      simp [hsb, hnm, hcap]
    have hpos : 0 < nonces.length := by
      rw [hlen]; decide
    refine ⟨h2, h1, ?_, mem_nonceCheck_fresh hs hfresh⟩
    rw [h2]
    simp only [List.length_append, List.length_tail, List.length_singleton]
    omega

/-- Witness for C9: a fresh nonce on a small set, a duplicate nonce, and a
fresh nonce on a set at full capacity. -/
theorem c9_replay_guard_witness :
    ("n1" : String) ≠ "" ∧
    (nonceCheck ["a", "b"] (.val "n1")).1 = [] ∧
    "n1" ∈ (nonceCheck ["a", "b"] (.val "n1")).2 ∧
    (nonceCheck ["a", "b"] (.val "a")).1 =
      ["Duplicate nonce (replay attack detected)"] ∧
    (nonceCheck (List.replicate MAX_NONCES "a") (.val "b")).2.length = MAX_NONCES := by
  have h1 := c9_replay_guard ["a", "b"] "n1" (by decide)
  have h2 := c9_replay_guard ["a", "b"] "a" (by decide)
  have h3 := c9_replay_guard (List.replicate MAX_NONCES "a") "b" (by decide)
  have hc : (List.replicate MAX_NONCES "a").contains "b" = false := by
    rw [List.contains_eq_any_beq, List.any_eq_false]
    intro x hx
    rw [List.eq_of_mem_replicate hx]
    decide
  have hl : (List.replicate MAX_NONCES "a").length = MAX_NONCES :=
    List.length_replicate _ _
  exact ⟨by decide, (h1.1 (by decide)).1, (h1.1 (by decide)).2,
    (h2.2.1 (by decide)).1, (h3.2.2 hc hl).2.2.1⟩

/-!
Claim C10: validation records a fresh nonce even when the announcement is
rejected for other fields; the registry is untouched on a validation error,
and an identical retry is rejected as a duplicate.
-/

/-- C10: an announcement carrying a fresh nonce but failing validation is
rejected with the validation errors, leaves the room registry unchanged,
records the nonce anyway, and revalidating the identical request against the
new state reports a duplicate nonce. -/
theorem c10_nonce_side_effect (cfg : Config) (st : TrackerState)
    (data : AnnounceData) (now : Nat) (s : String)
    (hn : data.nonce = .val s) (hs : s ≠ "")
    (hfresh : st.nonces.contains s = false)
    (herr : (validateAnnouncement cfg data now st.nonces).1 ≠ []) :
    (announce cfg st data now).1 =
      .validationError (validateAnnouncement cfg data now st.nonces).1 ∧
    (announce cfg st data now).2.rooms = st.rooms ∧
    s ∈ (announce cfg st data now).2.nonces ∧
    "Duplicate nonce (replay attack detected)" ∈
      (validateAnnouncement cfg data now (announce cfg st data now).2.nonces).1 := by
  have hann : announce cfg st data now =
      (.validationError (validateAnnouncement cfg data now st.nonces).1,
        { st with nonces := (validateAnnouncement cfg data now st.nonces).2 }) := by
    unfold announce
    rw [if_neg herr]
  have hn2 : (validateAnnouncement cfg data now st.nonces).2 =
      (nonceCheck st.nonces data.nonce).2 := by
    simp only [validateAnnouncement]
  have hmem : s ∈ (announce cfg st data now).2.nonces := by
    rw [hann, hn2, hn]
    exact mem_nonceCheck_fresh hs hfresh
  refine ⟨by rw [hann], by rw [hann], hmem, ?_⟩
  have hcont : ((announce cfg st data now).2.nonces).contains s = true := by
    rw [List.contains_eq_any_beq, List.any_eq_true]
    exact ⟨s, hmem, by simp⟩
  have hdup : (nonceCheck (announce cfg st data now).2.nonces data.nonce).1 =
      ["Duplicate nonce (replay attack detected)"] := by
    rw [hn]
    unfold nonceCheck
    simp [beq_false_of_ne hs, hmem]
  show "Duplicate nonce (replay attack detected)" ∈
      (validateAnnouncement cfg data now (announce cfg st data now).2.nonces).1
  unfold validateAnnouncement
  refine List.mem_append_right _ ?_
  rw [hdup]
  exact List.mem_singleton.mpr rfl

/-- Witness for C10: a request supplying only roomId, status and a fresh
nonce is rejected but still consumes the nonce. -/
theorem c10_nonce_side_effect_witness :
    (({ dataOnlyStatus with nonce := .val "n0" } : AnnounceData).nonce = .val "n0") ∧
    ("n0" : String) ≠ "" ∧
    st1.nonces.contains "n0" = false ∧
    (validateAnnouncement defaultConfig
      { dataOnlyStatus with nonce := .val "n0" } 3000 st1.nonces).1 ≠ [] ∧
    "n0" ∈ (announce defaultConfig st1
      { dataOnlyStatus with nonce := .val "n0" } 3000).2.nonces ∧
    (announce defaultConfig st1
      { dataOnlyStatus with nonce := .val "n0" } 3000).2.rooms = st1.rooms := by
  have h := c10_nonce_side_effect defaultConfig st1
    { dataOnlyStatus with nonce := .val "n0" } 3000 "n0" rfl (by decide)
    (by decide) (by decide)
  exact ⟨rfl, by decide, by decide, by decide, h.2.2.1, h.2.1⟩

/-!
Scenario lemmas for the rate limiter.
-/

theorem isIPBlockedChk_none {cfg : Config} {blocked : List (String × BlockInfo)}
    {ip : String} (now : Nat)
    (hperm : cfg.blockedIPsPerm.contains ip = false)
    (hnb : blocked.lookup ip = none) :
    isIPBlockedChk cfg blocked ip now = (none, blocked) := by
  have hpm : ip ∉ cfg.blockedIPsPerm := by simpa using hperm
  unfold isIPBlockedChk
  simp [hpm, hnb]

theorem enforceMapLimit_of_le {m : List (String × RLEntry)}
    (h : m.length ≤ MAX_RATE_LIMIT_ENTRIES) : enforceMapLimit m = m := by
  unfold enforceMapLimit
  rw [if_neg (Nat.not_lt.mpr h)]

/-- One request whose identity has an entry with an expired window: the
entry is replaced by a fresh one and the relevant counter becomes 1. -/
theorem rateLimitStep_expired (cfg : Config) (st : RLState) (ip : String)
    (isPost : Bool) (now : Nat) (e : RLEntry)
    (hdis : cfg.disableRateLimit = false)
    (hloc : isLocalhostIP ip = false)
    (hperm : cfg.blockedIPsPerm.contains ip = false)
    (hnb : st.blockedIPs.lookup ip = none)
    (he : st.rateLimitMap.lookup ip = some e)
    (hexp : e.resetTime < now)
    (hsmall : st.rateLimitMap.length ≤ MAX_RATE_LIMIT_ENTRIES)
    (hth : 1 ≤ (if isPost then cfg.rateLimitMaxAnnounces else cfg.rateLimitMaxRequests)) :
    rateLimitStep cfg st ip isPost now =
      (.allowed,
        { rateLimitMap :=
            updIfPresent ip
              (if isPost then { freshEntry now with announceCount := 1 }
               else { freshEntry now with count := 1 })
              (setAssoc ip (freshEntry now) st.rateLimitMap)
          blockedIPs := st.blockedIPs }) := by
  have hblk : isIPBlockedChk cfg st.blockedIPs ip now = (none, st.blockedIPs) :=
    isIPBlockedChk_none now hperm hnb
  have hlim : enforceMapLimit (setAssoc ip (freshEntry now) st.rateLimitMap) =
      setAssoc ip (freshEntry now) st.rateLimitMap :=
    enforceMapLimit_of_le (by rw [length_setAssoc_some _ he]; exact hsmall)
  cases isPost with
  | false =>
      simp only [Bool.false_eq_true, if_false] at hth ⊢
      unfold rateLimitStep
      simp only [hdis, Bool.false_eq_true, if_false, hloc, hblk, he, hexp,
        if_true, hlim]
      have hover : ¬ cfg.rateLimitMaxRequests < (freshEntry now).count + 1 := by
        simp only [freshEntry]
        omega
      simp only [hover, if_false]
      simp [freshEntry]
  | true =>
      simp only [if_true] at hth ⊢
      unfold rateLimitStep
      simp only [hdis, Bool.false_eq_true, if_false, hloc, hblk, he, hexp,
        if_true, hlim]
      have hover : ¬ cfg.rateLimitMaxAnnounces < (freshEntry now).announceCount + 1 := by
        simp only [freshEntry]
        omega
      simp only [hover, if_false]
      simp [freshEntry]

/-- Entries surviving the decay sweep keep their keys. -/
theorem cleanupTick_keys {m : List (String × RLEntry)} {now : Nat}
    {p : String × RLEntry} (hp : p ∈ rateLimitCleanupTick m now) :
    p.1 ∈ m.map Prod.fst := by
  unfold rateLimitCleanupTick at hp
  rcases List.mem_filterMap.mp hp with ⟨a, ha, hfa⟩
  have : p.1 = a.1 := by
    by_cases h1 : a.2.resetTime < now
    · by_cases h2 : 0 < a.2.violations
      · simp only [h1, if_true, h2] at hfa
        have h3 := Option.some.inj hfa
        rw [← h3]
      · simp [h1, h2] at hfa
    · simp [h1] at hfa
      rw [← hfa]
  rw [this]
  exact List.mem_map.mpr ⟨a, ha, rfl⟩

/-- The decay sweep decrements the violations of an expired-window entry. -/
theorem lookup_cleanupTick_dec {m : List (String × RLEntry)} {k : String}
    {e : RLEntry} {now : Nat} (hm : m.lookup k = some e)
    (hnd : (m.map Prod.fst).Nodup) (hexp : e.resetTime < now)
    (hv : 0 < e.violations) :
    (rateLimitCleanupTick m now).lookup k =
      some { e with violations := e.violations - 1 } := by
  induction m with
  | nil => simp [List.lookup] at hm
  | cons p rest ih =>
      rcases p with ⟨k1, v1⟩
      simp only [List.map_cons, List.nodup_cons] at hnd
      by_cases hk : k = k1
      · subst hk
        simp only [List.lookup, beq_self_eq_true] at hm
        cases hm
        unfold rateLimitCleanupTick
        simp only [List.filterMap_cons, hexp, if_true, hv]
        simp [List.lookup]
      · have hb : (k == k1) = false := beq_false_of_ne hk
        simp only [List.lookup, hb] at hm
        have htail := ih hm hnd.2
        unfold rateLimitCleanupTick at htail ⊢
        by_cases h1 : v1.resetTime < now
        · by_cases h2 : 0 < v1.violations
          · simp only [List.filterMap_cons, h1, if_true, h2, List.lookup, hb]
            exact htail
          · simp only [List.filterMap_cons, h1, if_true, h2, if_false]
            exact htail
        · simp only [List.filterMap_cons, h1, if_false, List.lookup, hb]
          exact htail

/-- The decay sweep drops an expired-window entry without violations. -/
theorem lookup_cleanupTick_drop {m : List (String × RLEntry)} {k : String}
    {e : RLEntry} {now : Nat} (hm : m.lookup k = some e)
    (hnd : (m.map Prod.fst).Nodup) (hexp : e.resetTime < now)
    (hv : e.violations = 0) :
    (rateLimitCleanupTick m now).lookup k = none := by
  induction m with
  | nil => simp [List.lookup] at hm
  | cons p rest ih =>
      rcases p with ⟨k1, v1⟩
      simp only [List.map_cons, List.nodup_cons] at hnd
      by_cases hk : k = k1
      · subst hk
        simp only [List.lookup, beq_self_eq_true] at hm
        cases hm
        unfold rateLimitCleanupTick
        simp only [List.filterMap_cons, hexp, if_true, hv]
        have hzero : ¬ (0 : Nat) < 0 := by omega
        simp only [hzero, if_false]
        rw [lookup_eq_none_iff]
        intro q hq he
        apply hnd.1
        have := cleanupTick_keys hq
        rw [he] at this
        exact this
      · have hb : (k == k1) = false := beq_false_of_ne hk
        simp only [List.lookup, hb] at hm
        have htail := ih hm hnd.2
        unfold rateLimitCleanupTick at htail ⊢
        by_cases h1 : v1.resetTime < now
        · by_cases h2 : 0 < v1.violations
          · simp only [List.filterMap_cons, h1, if_true, h2, List.lookup, hb]
            exact htail
          · simp only [List.filterMap_cons, h1, if_true, h2, if_false]
            exact htail
        · simp only [List.filterMap_cons, h1, if_false, List.lookup, hb]
          exact htail

/-- The per-kind threshold consulted by the middleware. -/
def rlThreshold (cfg : Config) (isPost : Bool) : Nat :=
  if isPost then cfg.rateLimitMaxAnnounces else cfg.rateLimitMaxRequests

/-- The per-kind counter of an entry. -/
def rlCounter (e : RLEntry) (isPost : Bool) : Nat :=
  if isPost then e.announceCount else e.count

/-- The per-kind violation reason passed to `blockIP`. -/
def rlReason (isPost : Bool) : String :=
  if isPost then "Excessive announce attempts" else "Excessive requests"

theorem isIPBlockedChk_active {cfg : Config} {blocked : List (String × BlockInfo)}
    {ip : String} {now : Nat} {info : BlockInfo}
    (hperm : cfg.blockedIPsPerm.contains ip = false)
    (hb : blocked.lookup ip = some info) (hnow : now < info.blockedUntil) :
    isIPBlockedChk cfg blocked ip now = (some info.reason, blocked) := by
  have hpm : ip ∉ cfg.blockedIPsPerm := by simpa using hperm
  unfold isIPBlockedChk
  simp [hpm, hb, hnow]

theorem isIPBlockedChk_stale {cfg : Config} {blocked : List (String × BlockInfo)}
    {ip : String} {now : Nat} {info : BlockInfo}
    (hperm : cfg.blockedIPsPerm.contains ip = false)
    (hb : blocked.lookup ip = some info) (hnow : ¬ now < info.blockedUntil) :
    isIPBlockedChk cfg blocked ip now = (none, delAssoc ip blocked) := by
  have hpm : ip ∉ cfg.blockedIPsPerm := by simpa using hperm
  unfold isIPBlockedChk
  simp [hpm, hb, hnow]

/-- One request whose identity has an in-window entry already at or above
the threshold of its kind: the request is denied with the ceiling of the
remaining window seconds, the violation count increments, and on reaching
`MAX_VIOLATIONS` the identity is blocked for `BLOCK_DURATION`. -/
theorem rateLimitStep_overLimit (cfg : Config) (st : RLState) (ip : String)
    (isPost : Bool) (now : Nat) (e : RLEntry)
    (hdis : cfg.disableRateLimit = false)
    (hloc : isLocalhostIP ip = false)
    (hperm : cfg.blockedIPsPerm.contains ip = false)
    (hnb : st.blockedIPs.lookup ip = none)
    (he : st.rateLimitMap.lookup ip = some e)
    (hwin : ¬ e.resetTime < now)
    (hsmall : st.rateLimitMap.length ≤ MAX_RATE_LIMIT_ENTRIES)
    (hover : rlThreshold cfg isPost ≤ rlCounter e isPost) :
    rateLimitStep cfg st ip isPost now =
      (.rateLimited ((e.resetTime - now + 999) / 1000),
        { rateLimitMap := updIfPresent ip
            (if isPost then
              { e with announceCount := e.announceCount + 1,
                       violations := e.violations + 1 }
             else
              { e with count := e.count + 1, violations := e.violations + 1 })
            st.rateLimitMap
          blockedIPs :=
            if cfg.maxViolations ≤ e.violations + 1 then
              blockIP st.blockedIPs ip (rlReason isPost) cfg.blockDuration now
            else st.blockedIPs }) := by
  have hblk : isIPBlockedChk cfg st.blockedIPs ip now = (none, st.blockedIPs) :=
    isIPBlockedChk_none now hperm hnb
  have hlim : enforceMapLimit st.rateLimitMap = st.rateLimitMap :=
    enforceMapLimit_of_le hsmall
  cases isPost with
  | false =>
      simp only [rlThreshold, rlCounter, Bool.false_eq_true, if_false] at hover
      unfold rateLimitStep
      simp only [hdis, Bool.false_eq_true, if_false, hloc, hblk, he, hwin, hlim]
      have hov2 : cfg.rateLimitMaxRequests < e.count + 1 := by omega
      simp only [hov2, if_true, rlReason, Bool.false_eq_true, if_false]
  | true =>
      simp only [rlThreshold, rlCounter, if_true] at hover
      unfold rateLimitStep
      simp only [hdis, Bool.false_eq_true, if_false, hloc, hblk, he, hwin, hlim,
        if_true]
      have hov2 : cfg.rateLimitMaxAnnounces < e.announceCount + 1 := by omega
      simp only [hov2, if_true, rlReason]

/-- One request by a currently-blocked identity is rejected with the reason,
whether or not the identity is a localhost one. -/
theorem rateLimitStep_blocked (cfg : Config) (st : RLState) (ip : String)
    (isPost : Bool) (now : Nat) (reason : String)
    (b2 : List (String × BlockInfo))
    (hdis : cfg.disableRateLimit = false)
    (hchk : isIPBlockedChk cfg st.blockedIPs ip now = (some reason, b2)) :
    rateLimitStep cfg st ip isPost now =
      (.blocked reason, { st with blockedIPs := b2 }) := by
  unfold rateLimitStep
  by_cases hloc2 : isLocalhostIP ip = true <;> simp [hdis, hloc2, hchk]

/-!
Claim C8: accumulating MAX_VIOLATIONS violations blocks the identity, the
next request is rejected as Blocked with the reason, and the block expires
lazily once BLOCK_DURATION has elapsed.
-/

/-- C8: for a non-trusted, unblocked identity whose in-window entry is at
the general threshold with `MAX_VIOLATIONS - 1` violations, the next request
is denied and inserts a temporary block until `now + BLOCK_DURATION`; a
request before that instant is rejected as Blocked with the reason, and a
check at or after it treats the identity as not blocked and removes the
entry as a side effect. -/
theorem c8_escalation_block (cfg : Config) (st : RLState) (ip : String)
    (e : RLEntry) (now now2 now3 : Nat)
    (hdis : cfg.disableRateLimit = false)
    (hloc : isLocalhostIP ip = false)
    (hperm : cfg.blockedIPsPerm.contains ip = false)
    (hnb : st.blockedIPs.lookup ip = none)
    (he : st.rateLimitMap.lookup ip = some e)
    (hwin : ¬ e.resetTime < now)
    (hcount : cfg.rateLimitMaxRequests ≤ e.count)
    (hviol : e.violations + 1 = cfg.maxViolations)
    (hsmall : st.rateLimitMap.length ≤ MAX_RATE_LIMIT_ENTRIES)
    (hnow2 : now2 < now + cfg.blockDuration)
    (hnow3 : now + cfg.blockDuration ≤ now3) :
    (rateLimitStep cfg st ip false now).1 =
      .rateLimited ((e.resetTime - now + 999) / 1000) ∧
    (rateLimitStep cfg st ip false now).2.blockedIPs.lookup ip =
      some { blockedUntil := now + cfg.blockDuration, reason := "Excessive requests" } ∧
    (rateLimitStep cfg (rateLimitStep cfg st ip false now).2 ip false now2).1 =
      .blocked "Excessive requests" ∧
    isIPBlockedChk cfg (rateLimitStep cfg st ip false now).2.blockedIPs ip now3 =
      (none, delAssoc ip (rateLimitStep cfg st ip false now).2.blockedIPs) ∧
    (delAssoc ip (rateLimitStep cfg st ip false now).2.blockedIPs).lookup ip =
      none := by
  have hover : rlThreshold cfg false ≤ rlCounter e false := by
    simpa [rlThreshold, rlCounter] using hcount
  have hstep := rateLimitStep_overLimit cfg st ip false now e hdis hloc hperm hnb
    he hwin hsmall hover
  have hmax : cfg.maxViolations ≤ e.violations + 1 := le_of_eq hviol.symm
  have hbip : blockIP st.blockedIPs ip (rlReason false) cfg.blockDuration now =
      setAssoc ip { blockedUntil := now + cfg.blockDuration,
                    reason := "Excessive requests" } st.blockedIPs := by
    have hr : rlReason false = "Excessive requests" := rfl
    rw [hr]
    unfold blockIP
    rw [if_neg (by simp [hloc])]
  have hblocked : (rateLimitStep cfg st ip false now).2.blockedIPs =
      setAssoc ip { blockedUntil := now + cfg.blockDuration,
                    reason := "Excessive requests" } st.blockedIPs := by
    rw [hstep]
    simp only [hmax, if_true, hbip]
  have hlk : (rateLimitStep cfg st ip false now).2.blockedIPs.lookup ip =
      some { blockedUntil := now + cfg.blockDuration,
             reason := "Excessive requests" } := by
    rw [hblocked]
    exact lookup_setAssoc_self _ _ _
  refine ⟨by simp only [hstep], hlk, ?_, ?_, ?_⟩
  · have hchk : isIPBlockedChk cfg
        (rateLimitStep cfg st ip false now).2.blockedIPs ip now2 =
        (some "Excessive requests",
          (rateLimitStep cfg st ip false now).2.blockedIPs) := by
      have := isIPBlockedChk_active hperm hlk hnow2
      simpa using this
    rw [rateLimitStep_blocked cfg _ ip false now2 _ _ hdis hchk]
  · refine isIPBlockedChk_stale hperm hlk ?_
    show ¬ now3 < now + cfg.blockDuration
    omega
  · exact lookup_delAssoc_self _ _

/-- Witness for C8: a concrete identity one violation short of the limit at
the general threshold, blocked on the next request, rejected while blocked,
and lazily unblocked after five minutes. -/
theorem c8_escalation_block_witness :
    ([("8.8.8.8", ⟨120, 0, 5000, 9⟩)] : List (String × RLEntry)).lookup "8.8.8.8" =
      some ⟨120, 0, 5000, 9⟩ ∧
    (rateLimitStep defaultConfig ⟨[("8.8.8.8", ⟨120, 0, 5000, 9⟩)], []⟩
      "8.8.8.8" false 4000).1 = .rateLimited 1 ∧
    (rateLimitStep defaultConfig
      (rateLimitStep defaultConfig ⟨[("8.8.8.8", ⟨120, 0, 5000, 9⟩)], []⟩
        "8.8.8.8" false 4000).2 "8.8.8.8" false 100000).1 =
      .blocked "Excessive requests" ∧
    isIPBlockedChk defaultConfig
      (rateLimitStep defaultConfig ⟨[("8.8.8.8", ⟨120, 0, 5000, 9⟩)], []⟩
        "8.8.8.8" false 4000).2.blockedIPs "8.8.8.8" 304000 =
      (none, delAssoc "8.8.8.8"
        (rateLimitStep defaultConfig ⟨[("8.8.8.8", ⟨120, 0, 5000, 9⟩)], []⟩
          "8.8.8.8" false 4000).2.blockedIPs) := by
  have h := c8_escalation_block defaultConfig
    ⟨[("8.8.8.8", ⟨120, 0, 5000, 9⟩)], []⟩ "8.8.8.8" ⟨120, 0, 5000, 9⟩
    4000 100000 304000 rfl (by decide) (by decide) rfl (by decide) (by decide)
    (by decide) (by decide) (by decide) (by decide) (by decide)
  exact ⟨by decide, h.1, h.2.2.1, h.2.2.2.1⟩

/-!
Claim C3: what window rollover does to the counters and the violation count,
and what the periodic decay sweep does.
-/

/-- A rate-limit entry with an expired window and accumulated violations. -/
def rlEntryStale : RLEntry :=
  { count := 5, announceCount := 2, resetTime := 1000, violations := 3 }

/-- A limiter state holding only the stale entry. -/
def rlStateStale : RLState :=
  { rateLimitMap := [("1.2.3.4", rlEntryStale)], blockedIPs := [] }

/-- C3 counterexample: the stale entry has 3 violations and an expired
window, yet the next request replaces it with a fresh entry whose violation
count is 0 — window rollover does reset `violations`, contrary to the
claim that it only decays via the periodic sweep or entry drop. -/
theorem c3_counterexample :
    rlEntryStale.resetTime < 2000 ∧
    rlEntryStale.violations = 3 ∧
    (rateLimitStep defaultConfig rlStateStale "1.2.3.4" false 2000).1 =
      .allowed ∧
    (rateLimitStep defaultConfig rlStateStale "1.2.3.4" false
        2000).2.rateLimitMap.lookup "1.2.3.4" =
      some { count := 1, announceCount := 0, resetTime := 2000 + RATE_LIMIT_WINDOW,
             violations := 0 } := by
  refine ⟨by decide, by decide, ?_, ?_⟩ <;> decide

/-- C3 amended: on window expiry (`now > windowResetAt`) the next request
replaces the identity's entry with a fresh window in which both counters and
the violation count restart from zero (the request itself then counts as
one); violations decrease only through this rollover reset, through the
periodic decay sweep (which decrements the violations of an expired-window
entry), or when the sweep drops an idle entry without violations. -/
theorem c3_amended (cfg : Config) (st : RLState) (ip : String) (e : RLEntry)
    (isPost : Bool) (now : Nat)
    (hdis : cfg.disableRateLimit = false)
    (hloc : isLocalhostIP ip = false)
    (hperm : cfg.blockedIPsPerm.contains ip = false)
    (hnb : st.blockedIPs.lookup ip = none)
    (he : st.rateLimitMap.lookup ip = some e)
    (hexp : e.resetTime < now)
    (hsmall : st.rateLimitMap.length ≤ MAX_RATE_LIMIT_ENTRIES)
    (hth : 1 ≤ (if isPost then cfg.rateLimitMaxAnnounces else cfg.rateLimitMaxRequests))
    (m : List (String × RLEntry)) (k : String) (e2 : RLEntry) (now2 : Nat)
    (hm : m.lookup k = some e2) (hnd : (m.map Prod.fst).Nodup)
    (hexp2 : e2.resetTime < now2) :
    (rateLimitStep cfg st ip isPost now).1 = .allowed ∧
    (rateLimitStep cfg st ip isPost now).2.rateLimitMap.lookup ip =
      some { count := if isPost then 0 else 1
             announceCount := if isPost then 1 else 0
             resetTime := now + RATE_LIMIT_WINDOW
             violations := 0 } ∧
    (0 < e2.violations →
      (rateLimitCleanupTick m now2).lookup k =
        some { e2 with violations := e2.violations - 1 }) ∧
    (e2.violations = 0 → (rateLimitCleanupTick m now2).lookup k = none) := by
  rw [rateLimitStep_expired cfg st ip isPost now e hdis hloc hperm hnb he hexp
    hsmall hth]
  refine ⟨rfl, ?_, ?_, ?_⟩
  · have hset := lookup_setAssoc_self ip (freshEntry now) st.rateLimitMap
    have := lookup_updIfPresent_some
      (if isPost then { freshEntry now with announceCount := 1 }
       else { freshEntry now with count := 1 }) hset
    rw [this]
    cases isPost <;> simp [freshEntry]
  · intro hv
    exact lookup_cleanupTick_dec hm hnd hexp2 hv
  · intro hv
    exact lookup_cleanupTick_drop hm hnd hexp2 hv

/-- Witness for C3 amended: the stale-entry fixture rolls over to a fresh
window with zeroed violations, and the decay sweep decrements a concrete
expired entry. -/
theorem c3_amended_witness :
    defaultConfig.disableRateLimit = false ∧
    rlStateStale.rateLimitMap.lookup "1.2.3.4" = some rlEntryStale ∧
    rlEntryStale.resetTime < 2000 ∧
    (rateLimitStep defaultConfig rlStateStale "1.2.3.4" false 2000).1 =
      .allowed ∧
    (rateLimitStep defaultConfig rlStateStale "1.2.3.4" false
        2000).2.rateLimitMap.lookup "1.2.3.4" =
      some { count := 1, announceCount := 0, resetTime := 2000 + RATE_LIMIT_WINDOW,
             violations := 0 } ∧
    (rateLimitCleanupTick [("7.7.7.7", rlEntryStale)] 2000).lookup "7.7.7.7" =
      some { rlEntryStale with violations := 2 } := by
  have h := c3_amended defaultConfig rlStateStale "1.2.3.4" rlEntryStale false 2000
    rfl (by decide) (by decide) rfl (by decide) (by decide) (by decide) (by decide)
    [("7.7.7.7", rlEntryStale)] "7.7.7.7" rlEntryStale 2000 (by decide) (by decide)
    (by decide)
  exact ⟨rfl, by decide, by decide, h.1, h.2.1, h.2.2.1 (by decide)⟩

/-!
Claim C7: threshold behaviour of the rate limiter within one window.
-/

/-- One request whose identity has no entry yet: a fresh window starts and
the request is allowed provided the threshold is at least one. -/
theorem rateLimitStep_noEntry (cfg : Config) (st : RLState) (ip : String)
    (isPost : Bool) (now : Nat)
    (hdis : cfg.disableRateLimit = false)
    (hloc : isLocalhostIP ip = false)
    (hperm : cfg.blockedIPsPerm.contains ip = false)
    (hnb : st.blockedIPs.lookup ip = none)
    (he : st.rateLimitMap.lookup ip = none)
    (hsmall : st.rateLimitMap.length + 1 ≤ MAX_RATE_LIMIT_ENTRIES)
    (hth : 1 ≤ rlThreshold cfg isPost) :
    rateLimitStep cfg st ip isPost now =
      (.allowed,
        { rateLimitMap :=
            updIfPresent ip
              (if isPost then { freshEntry now with announceCount := 1 }
               else { freshEntry now with count := 1 })
              (setAssoc ip (freshEntry now) st.rateLimitMap)
          blockedIPs := st.blockedIPs }) := by
  have hblk : isIPBlockedChk cfg st.blockedIPs ip now = (none, st.blockedIPs) :=
    isIPBlockedChk_none now hperm hnb
  have hlim : enforceMapLimit (setAssoc ip (freshEntry now) st.rateLimitMap) =
      setAssoc ip (freshEntry now) st.rateLimitMap :=
    enforceMapLimit_of_le (by rw [length_setAssoc_none _ he]; exact hsmall)
  cases isPost with
  | false =>
      simp only [rlThreshold, Bool.false_eq_true, if_false] at hth
      unfold rateLimitStep
      simp only [hdis, Bool.false_eq_true, if_false, hloc, hblk, he, hlim]
      have hover : ¬ cfg.rateLimitMaxRequests < (freshEntry now).count + 1 := by
        simp only [freshEntry]
        omega
      simp only [hover, if_false]
      simp [freshEntry]
  | true =>
      simp only [rlThreshold, if_true] at hth
      unfold rateLimitStep
      simp only [hdis, Bool.false_eq_true, if_false, hloc, hblk, he, hlim, if_true]
      have hover : ¬ cfg.rateLimitMaxAnnounces < (freshEntry now).announceCount + 1 := by
        simp only [freshEntry]
        omega
      simp only [hover, if_false]
      simp [freshEntry]

/-- One request whose identity has an in-window entry strictly under the
threshold after the increment: allowed, with only the counter bumped. -/
theorem rateLimitStep_inWindow (cfg : Config) (st : RLState) (ip : String)
    (isPost : Bool) (now : Nat) (e : RLEntry)
    (hdis : cfg.disableRateLimit = false)
    (hloc : isLocalhostIP ip = false)
    (hperm : cfg.blockedIPsPerm.contains ip = false)
    (hnb : st.blockedIPs.lookup ip = none)
    (he : st.rateLimitMap.lookup ip = some e)
    (hwin : ¬ e.resetTime < now)
    (hsmall : st.rateLimitMap.length ≤ MAX_RATE_LIMIT_ENTRIES)
    (hunder : rlCounter e isPost + 1 ≤ rlThreshold cfg isPost) :
    rateLimitStep cfg st ip isPost now =
      (.allowed,
        { rateLimitMap :=
            updIfPresent ip
              (if isPost then { e with announceCount := e.announceCount + 1 }
               else { e with count := e.count + 1 })
              st.rateLimitMap
          blockedIPs := st.blockedIPs }) := by
  have hblk : isIPBlockedChk cfg st.blockedIPs ip now = (none, st.blockedIPs) :=
    isIPBlockedChk_none now hperm hnb
  have hlim : enforceMapLimit st.rateLimitMap = st.rateLimitMap :=
    enforceMapLimit_of_le hsmall
  cases isPost with
  | false =>
      simp only [rlThreshold, rlCounter, Bool.false_eq_true, if_false] at hunder
      unfold rateLimitStep
      simp only [hdis, Bool.false_eq_true, if_false, hloc, hblk, he, hwin, hlim]
      have hover : ¬ cfg.rateLimitMaxRequests < e.count + 1 := by omega
      simp only [hover, if_false]
  | true =>
      simp only [rlThreshold, rlCounter, if_true] at hunder
      unfold rateLimitStep
      simp only [hdis, Bool.false_eq_true, if_false, hloc, hblk, he, hwin, hlim,
        if_true]
      have hover : ¬ cfg.rateLimitMaxAnnounces < e.announceCount + 1 := by omega
      simp only [hover, if_false]

/-- The entry of an identity that has made `n` allowed requests of one kind
in the window opened at reset time `rt`. -/
def mkCountEntry (isPost : Bool) (n : Nat) (rt : Nat) : RLEntry :=
  { count := if isPost then 0 else n
    announceCount := if isPost then n else 0
    resetTime := rt
    violations := 0 }

theorem rlIterate_succ (cfg : Config) (ip : String) (isPost : Bool) (now : Nat)
    (n : Nat) (st : RLState) :
    rlIterate cfg ip isPost now (n + 1) st =
      (rateLimitStep cfg (rlIterate cfg ip isPost now n st) ip isPost now).2 := by
  induction n generalizing st with
  | zero => rfl
  | succ m ih =>
      have h1 : rlIterate cfg ip isPost now (m + 1 + 1) st =
          rlIterate cfg ip isPost now (m + 1)
            (rateLimitStep cfg st ip isPost now).2 := rfl
      have h2 : rlIterate cfg ip isPost now (m + 1) st =
          rlIterate cfg ip isPost now m (rateLimitStep cfg st ip isPost now).2 := rfl
      rw [h1, ih, h2]

theorem rlIterate_state (cfg : Config) (blocked0 : List (String × BlockInfo))
    (ip : String) (isPost : Bool) (t0 : Nat)
    (hdis : cfg.disableRateLimit = false)
    (hloc : isLocalhostIP ip = false)
    (hperm : cfg.blockedIPsPerm.contains ip = false)
    (hnb : blocked0.lookup ip = none) :
    ∀ n, 1 ≤ n → n ≤ rlThreshold cfg isPost →
      rlIterate cfg ip isPost t0 n ⟨[], blocked0⟩ =
        ⟨[(ip, mkCountEntry isPost n (t0 + RATE_LIMIT_WINDOW))], blocked0⟩ := by
  intro n
  induction n with
  | zero => omega
  | succ m ih =>
      intro _ hle
      by_cases hm : m = 0
      · subst hm
        have hstep := rateLimitStep_noEntry cfg ⟨[], blocked0⟩ ip isPost t0 hdis
          hloc hperm hnb rfl (by norm_num [MAX_RATE_LIMIT_ENTRIES])
          (le_trans (by omega) hle)
        have h0 : rlIterate cfg ip isPost t0 1 ⟨[], blocked0⟩ =
            (rateLimitStep cfg ⟨[], blocked0⟩ ip isPost t0).2 := rfl
        rw [h0, hstep]
        have hset : setAssoc ip (freshEntry t0) ([] : List (String × RLEntry)) =
            [(ip, freshEntry t0)] := by simp [setAssoc]
        rw [hset]
        cases isPost <;> simp [updIfPresent, mkCountEntry, freshEntry]
      · have hm1 : 1 ≤ m := by omega
        have hmth : m ≤ rlThreshold cfg isPost := by omega
        rw [rlIterate_succ, ih hm1 hmth]
        have he : ([(ip, mkCountEntry isPost m (t0 + RATE_LIMIT_WINDOW))] :
            List (String × RLEntry)).lookup ip =
            some (mkCountEntry isPost m (t0 + RATE_LIMIT_WINDOW)) := by
          simp [List.lookup]
        have hwin : ¬ (mkCountEntry isPost m (t0 + RATE_LIMIT_WINDOW)).resetTime
            < t0 := by
          simp only [mkCountEntry]
          omega
        have hunder : rlCounter (mkCountEntry isPost m (t0 + RATE_LIMIT_WINDOW))
            isPost + 1 ≤ rlThreshold cfg isPost := by
          cases isPost <;> simp only [rlCounter, mkCountEntry] <;> simp <;> omega
        have hstep := rateLimitStep_inWindow cfg
          ⟨[(ip, mkCountEntry isPost m (t0 + RATE_LIMIT_WINDOW))], blocked0⟩
          ip isPost t0 (mkCountEntry isPost m (t0 + RATE_LIMIT_WINDOW)) hdis hloc
          hperm hnb he hwin (by norm_num [MAX_RATE_LIMIT_ENTRIES]) hunder
        rw [hstep]
        cases isPost <;> simp [updIfPresent, mkCountEntry]

/-- C7: for a non-trusted, non-blocked identity with no prior entry, every
request of a kind up to the threshold within one window is allowed; the
(threshold+1)-th request of that kind, made at any instant `t1` still inside
the window, is denied with the ceiling of the seconds remaining until the
window resets; and a request after the window has elapsed is allowed again
with the counter restarted at one. -/
theorem c7_threshold (cfg : Config) (blocked0 : List (String × BlockInfo))
    (ip : String) (isPost : Bool) (t0 t1 t2 j : Nat)
    (hdis : cfg.disableRateLimit = false)
    (hloc : isLocalhostIP ip = false)
    (hperm : cfg.blockedIPsPerm.contains ip = false)
    (hnb : blocked0.lookup ip = none)
    (hth : 1 ≤ rlThreshold cfg isPost)
    (hj1 : 1 ≤ j) (hj : j ≤ rlThreshold cfg isPost)
    (ht1 : ¬ t0 + RATE_LIMIT_WINDOW < t1)
    (ht2 : t0 + RATE_LIMIT_WINDOW < t2) :
    (rateLimitStep cfg (rlIterate cfg ip isPost t0 (j - 1) ⟨[], blocked0⟩)
      ip isPost t0).1 = .allowed ∧
    (rateLimitStep cfg
      (rlIterate cfg ip isPost t0 (rlThreshold cfg isPost) ⟨[], blocked0⟩)
      ip isPost t1).1 =
      .rateLimited ((t0 + RATE_LIMIT_WINDOW - t1 + 999) / 1000) ∧
    (rateLimitStep cfg
      (rlIterate cfg ip isPost t0 (rlThreshold cfg isPost) ⟨[], blocked0⟩)
      ip isPost t2).1 = .allowed ∧
    (rateLimitStep cfg
      (rlIterate cfg ip isPost t0 (rlThreshold cfg isPost) ⟨[], blocked0⟩)
      ip isPost t2).2.rateLimitMap.lookup ip =
      some (mkCountEntry isPost 1 (t2 + RATE_LIMIT_WINDOW)) := by
  have hstT := rlIterate_state cfg blocked0 ip isPost t0 hdis hloc hperm hnb
    (rlThreshold cfg isPost) hth le_rfl
  have heT : ([(ip, mkCountEntry isPost (rlThreshold cfg isPost)
      (t0 + RATE_LIMIT_WINDOW))] : List (String × RLEntry)).lookup ip =
      some (mkCountEntry isPost (rlThreshold cfg isPost)
        (t0 + RATE_LIMIT_WINDOW)) := by
    simp [List.lookup]
  refine ⟨?_, ?_, ?_, ?_⟩
  · by_cases hj0 : j - 1 = 0
    · rw [hj0]
      have hstep := rateLimitStep_noEntry cfg ⟨[], blocked0⟩ ip isPost t0 hdis
        hloc hperm hnb rfl (by norm_num [MAX_RATE_LIMIT_ENTRIES]) hth
      have h0 : rlIterate cfg ip isPost t0 0 ⟨[], blocked0⟩ = ⟨[], blocked0⟩ := rfl
      rw [h0, hstep]
    · have hm1 : 1 ≤ j - 1 := by omega
      have hmth : j - 1 ≤ rlThreshold cfg isPost := by omega
      rw [rlIterate_state cfg blocked0 ip isPost t0 hdis hloc hperm hnb
        (j - 1) hm1 hmth]
      have he : ([(ip, mkCountEntry isPost (j - 1) (t0 + RATE_LIMIT_WINDOW))] :
          List (String × RLEntry)).lookup ip =
          some (mkCountEntry isPost (j - 1) (t0 + RATE_LIMIT_WINDOW)) := by
        simp [List.lookup]
      have hwin : ¬ (mkCountEntry isPost (j - 1) (t0 + RATE_LIMIT_WINDOW)).resetTime
          < t0 := by
        simp only [mkCountEntry]
        omega
      have hunder : rlCounter (mkCountEntry isPost (j - 1) (t0 + RATE_LIMIT_WINDOW))
          isPost + 1 ≤ rlThreshold cfg isPost := by
        cases isPost <;> simp only [rlCounter, mkCountEntry] <;> simp <;> omega
      rw [rateLimitStep_inWindow cfg _ ip isPost t0 _ hdis hloc hperm hnb he hwin
        (by norm_num [MAX_RATE_LIMIT_ENTRIES]) hunder]
  · rw [hstT]
    have hwin : ¬ (mkCountEntry isPost (rlThreshold cfg isPost)
        (t0 + RATE_LIMIT_WINDOW)).resetTime < t1 := by
      simp only [mkCountEntry]
      exact ht1
    have hover : rlThreshold cfg isPost ≤
        rlCounter (mkCountEntry isPost (rlThreshold cfg isPost)
          (t0 + RATE_LIMIT_WINDOW)) isPost := by
      cases isPost <;> simp [rlCounter, mkCountEntry]
    rw [rateLimitStep_overLimit cfg _ ip isPost t1 _ hdis hloc hperm hnb heT hwin
      (by norm_num [MAX_RATE_LIMIT_ENTRIES]) hover]
    simp [mkCountEntry]
  · rw [hstT]
    have hexp : (mkCountEntry isPost (rlThreshold cfg isPost)
        (t0 + RATE_LIMIT_WINDOW)).resetTime < t2 := by
      simp only [mkCountEntry]
      exact ht2
    rw [rateLimitStep_expired cfg _ ip isPost t2 _ hdis hloc hperm hnb heT hexp
      (by norm_num [MAX_RATE_LIMIT_ENTRIES]) (by simpa [rlThreshold] using hth)]
  · rw [hstT]
    have hexp : (mkCountEntry isPost (rlThreshold cfg isPost)
        (t0 + RATE_LIMIT_WINDOW)).resetTime < t2 := by
      simp only [mkCountEntry]
      exact ht2
    rw [rateLimitStep_expired cfg _ ip isPost t2 _ hdis hloc hperm hnb heT hexp
      (by norm_num [MAX_RATE_LIMIT_ENTRIES]) (by simpa [rlThreshold] using hth)]
    cases isPost <;> simp [updIfPresent, setAssoc, mkCountEntry, freshEntry]

/-- Witness for C7 with the announce counter at the default threshold of 20:
the fifth request is allowed, the 21st in the same window is denied with 45
remaining seconds, and a request in a fresh window is allowed again. -/
theorem c7_threshold_witness :
    1 ≤ rlThreshold defaultConfig true ∧
    (rateLimitStep defaultConfig
      (rlIterate defaultConfig "9.9.9.9" true 100000 4 ⟨[], []⟩)
      "9.9.9.9" true 100000).1 = .allowed ∧
    (rateLimitStep defaultConfig
      (rlIterate defaultConfig "9.9.9.9" true 100000
        (rlThreshold defaultConfig true) ⟨[], []⟩)
      "9.9.9.9" true 115001).1 = .rateLimited 45 ∧
    (rateLimitStep defaultConfig
      (rlIterate defaultConfig "9.9.9.9" true 100000
        (rlThreshold defaultConfig true) ⟨[], []⟩)
      "9.9.9.9" true 200000).1 = .allowed := by
  have h := c7_threshold defaultConfig [] "9.9.9.9" true 100000 115001 200000 5
    rfl (by decide) (by decide) rfl (by decide) (by decide) (by decide)
    (by decide) (by decide)
  exact ⟨by decide, h.1, h.2.1, h.2.2.1⟩

/-!
Claim C6: pagination of the query pipeline.
-/

/-- C6: the query reports `total` as the length of the post-filter post-sort
list and returns its contiguous slice `[offset, offset + limit)`, so a page
holds `min limit (total - offset)` rooms, an offset at or beyond `total`
yields an empty page, the page at offset 0 with limit `total` is the whole
list, and consecutive pages concatenate to the larger slice — hence all
pages in order reproduce the filtered, sorted list exactly once each. -/
theorem c6_pagination (ps : QueryParams) (l : List Room) (j k n m : Nat) :
    (queryCore ps l).2 = (filteredSorted ps l).length ∧
    (queryCore ps l).1 =
      ((filteredSorted ps l).drop ps.offset).take ps.limit ∧
    (queryCore ps l).1.length =
      min ps.limit ((filteredSorted ps l).length - ps.offset) ∧
    (queryCore { ps with offset := (filteredSorted ps l).length + j } l).1 = [] ∧
    (queryCore { ps with offset := 0, limit := (filteredSorted ps l).length } l).1 =
      filteredSorted ps l ∧
    (queryCore { ps with offset := k, limit := n } l).1 ++
      (queryCore { ps with offset := k + n, limit := m } l).1 =
      (queryCore { ps with offset := k, limit := n + m } l).1 := by
  refine ⟨rfl, rfl, ?_, ?_, ?_, ?_⟩
  · simp [queryCore]
  · show (((filteredSorted ps l).drop ((filteredSorted ps l).length + j)).take
      ps.limit) = []
    rw [List.drop_eq_nil_of_le (by omega)]
    exact List.take_nil
  · show ((filteredSorted ps l).drop 0).take (filteredSorted ps l).length =
      filteredSorted ps l
    rw [List.drop_zero, List.take_length]
  · show ((filteredSorted ps l).drop k).take n ++
        ((filteredSorted ps l).drop (k + n)).take m =
        ((filteredSorted ps l).drop k).take (n + m)
    rw [List.take_add]
    congr 1
    rw [List.drop_drop]

/-!
Claim C5: the shared TTL predicate and its effect on reads and sweeps.
-/

theorem mem_ite_filter {c : Prop} [Decidable c] {f : Room → Bool}
    {l : List Room} {r : Room} (h : r ∈ (if c then l.filter f else l)) :
    r ∈ l := by
  by_cases hc : c
  · rw [if_pos hc] at h
    exact List.mem_of_mem_filter h
  · rwa [if_neg hc] at h

theorem mem_ite_filter' {c : Prop} [Decidable c] {f : Room → Bool}
    {l : List Room} {r : Room} (h : r ∈ (if c then l else l.filter f)) :
    r ∈ l := by
  by_cases hc : c
  · rwa [if_pos hc] at h
  · rw [if_neg hc] at h
    exact List.mem_of_mem_filter h

/-- Rooms surviving the filter pipeline come from the input list. -/
theorem mem_filterRooms {ps : QueryParams} {l : List Room} {r : Room}
    (h : r ∈ filterRooms ps l) : r ∈ l := by
  simp only [filterRooms] at h
  have h4 := mem_ite_filter h
  have h3 := List.mem_of_mem_filter h4
  have h2 := mem_ite_filter h3
  have h1 := mem_ite_filter h2
  exact mem_ite_filter' h1

/-- Sorting permutes, so membership is preserved. -/
theorem mem_sortRooms {sort : String} {l : List Room} {r : Room}
    (h : r ∈ sortRooms sort l) : r ∈ l := by
  unfold sortRooms at h
  split at h
  · exact (List.perm_insertionSort _ l).mem_iff.mp h
  · split at h
    · exact (List.perm_insertionSort _ l).mem_iff.mp h
    · split at h
      · exact (List.perm_insertionSort _ l).mem_iff.mp h
      · exact (List.perm_insertionSort _ l).mem_iff.mp h

theorem mem_foldl_delAssoc {α : Type} {p : String × α} :
    ∀ (xs : List (String × α)) (acc : List (String × α)),
      p ∈ xs.foldl (fun a q => delAssoc q.1 a) acc → p ∈ acc := by
  intro xs
  induction xs with
  | nil => intro acc h; exact h
  | cons x rest ih =>
      intro acc h
      exact mem_delAssoc (ih (delAssoc x.1 acc) h)

/-- C5: the sweep at the start of GET /announce and GET /scrape keeps
exactly the registry records that are not expired under the shared
predicate; every room in a query page is non-expired; the scrape total
counts exactly the non-expired records; and every record surviving the
periodic cleanup tick is non-expired. -/
theorem c5_ttl_sweep (cfg : Config) (st : TrackerState) (ps : QueryParams)
    (now : Nat) :
    (getAnnounce cfg st ps now).2.rooms =
      st.rooms.filter (fun p => !(isExpired cfg p.2 now)) ∧
    (scrape cfg st now).2.rooms =
      st.rooms.filter (fun p => !(isExpired cfg p.2 now)) ∧
    (∀ r ∈ (getAnnounce cfg st ps now).1.1, isExpired cfg r now = false) ∧
    (scrape cfg st now).1.totalRooms =
      (st.rooms.filter (fun p => !(isExpired cfg p.2 now))).length ∧
    (∀ p ∈ roomCleanupTick cfg st.rooms now, isExpired cfg p.2 now = false) := by
  refine ⟨rfl, rfl, ?_, ?_, ?_⟩
  · intro r hr
    have h1 : r ∈ filteredSorted ps
        ((cleanExpiredRooms cfg st.rooms now).map (fun p => p.2)) := by
      have h2 : r ∈ (filteredSorted ps
          ((cleanExpiredRooms cfg st.rooms now).map (fun p => p.2))).drop
            ps.offset :=
        List.mem_of_mem_take hr
      exact List.mem_of_mem_drop h2
    have h3 : r ∈ (cleanExpiredRooms cfg st.rooms now).map (fun p => p.2) :=
      mem_filterRooms (mem_sortRooms h1)
    rcases List.mem_map.mp h3 with ⟨q, hq, he⟩
    have h4 := List.of_mem_filter hq
    rw [← he]
    simpa using h4
  · show (scrapeStats ((cleanExpiredRooms cfg st.rooms now).map
      (fun p => p.2))).totalRooms = _
    simp [scrapeStats, cleanExpiredRooms]
  · intro p hp
    have h1 : p ∈ cleanExpiredRooms cfg st.rooms now := by
      unfold roomCleanupTick at hp
      by_cases hc : MAX_ROOMS < (cleanExpiredRooms cfg st.rooms now).length
      · rw [if_pos hc] at hp
        exact mem_foldl_delAssoc _ _ hp
      · rwa [if_neg hc] at hp
    have h2 := List.of_mem_filter h1
    simpa using h2

/-- Witness for C5: with one expired and one live room, the read sweep keeps
exactly the live room and the live room appears non-expired in the page. -/
theorem c5_ttl_sweep_witness :
    isExpired defaultConfig oldRoomW 1000000 = true ∧
    (getAnnounce defaultConfig stW psAll 1000000).2.rooms =
      [("fresh", freshRoomW)] ∧
    isExpired defaultConfig freshRoomW 1000000 = false := by
  have h := c5_ttl_sweep defaultConfig stW psAll 1000000
  refine ⟨by decide, ?_, ?_⟩
  · rw [h.1]
    decide
  · exact h.2.2.1 freshRoomW (by decide)

/-!
Branch lemmas for POST /announce on validated data.
-/

/-- A validated update below capacity: no eviction, in-place merge. -/
theorem announce_valid_update (cfg : Config) (st : TrackerState)
    (data : AnnounceData) (now : Nat) (rid : String) (room : Room)
    (hvalid : (validateAnnouncement cfg data now st.nonces).1 = [])
    (hrid : data.roomId = .val rid)
    (hlen : st.rooms.length < MAX_ROOMS)
    (hfound : st.rooms.lookup rid = some room) :
    announce cfg st data now =
      (.ok (updateRoom room data now),
        { rooms := updIfPresent rid (updateRoom room data now) st.rooms
          nonces := (validateAnnouncement cfg data now st.nonces).2 }) := by
  unfold announce
  rw [if_pos hvalid, if_neg (Nat.not_le.mpr hlen), hrid]
  have hg : (JVal.val rid).getStrD "" = rid := rfl
  rw [hg]
  simp only [hfound]

/-- A validated creation below capacity: no eviction, append. -/
theorem announce_valid_create (cfg : Config) (st : TrackerState)
    (data : AnnounceData) (now : Nat) (rid : String)
    (hvalid : (validateAnnouncement cfg data now st.nonces).1 = [])
    (hrid : data.roomId = .val rid)
    (hlen : st.rooms.length < MAX_ROOMS)
    (hnew : st.rooms.lookup rid = none) :
    announce cfg st data now =
      (.ok (createRoom data now),
        { rooms := st.rooms ++ [(rid, createRoom data now)]
          nonces := (validateAnnouncement cfg data now st.nonces).2 }) := by
  unfold announce
  rw [if_pos hvalid, if_neg (Nat.not_le.mpr hlen), hrid]
  have hg : (JVal.val rid).getStrD "" = rid := rfl
  rw [hg]
  simp only [hnew]

/-- A validated creation at capacity: the oldest room is evicted first. -/
theorem announce_valid_atCap_create (cfg : Config) (st : TrackerState)
    (data : AnnounceData) (now : Nat) (rid : String)
    (hvalid : (validateAnnouncement cfg data now st.nonces).1 = [])
    (hrid : data.roomId = .val rid)
    (hlen : MAX_ROOMS ≤ st.rooms.length)
    (hnew : (evictOldest st.rooms).lookup rid = none) :
    announce cfg st data now =
      (.ok (createRoom data now),
        { rooms := evictOldest st.rooms ++ [(rid, createRoom data now)]
          nonces := (validateAnnouncement cfg data now st.nonces).2 }) := by
  unfold announce
  rw [if_pos hvalid, if_pos hlen, hrid]
  have hg : (JVal.val rid).getStrD "" = rid := rfl
  rw [hg]
  simp only [hnew]

/-- A validated update at capacity: the oldest room is evicted first even
though the announced roomId already exists. -/
theorem announce_valid_atCap_update (cfg : Config) (st : TrackerState)
    (data : AnnounceData) (now : Nat) (rid : String) (room : Room)
    (hvalid : (validateAnnouncement cfg data now st.nonces).1 = [])
    (hrid : data.roomId = .val rid)
    (hlen : MAX_ROOMS ≤ st.rooms.length)
    (hfound : (evictOldest st.rooms).lookup rid = some room) :
    announce cfg st data now =
      (.ok (updateRoom room data now),
        { rooms := updIfPresent rid (updateRoom room data now) (evictOldest st.rooms)
          nonces := (validateAnnouncement cfg data now st.nonces).2 }) := by
  unfold announce
  rw [if_pos hvalid, if_pos hlen, hrid]
  have hg : (JVal.val rid).getStrD "" = rid := rfl
  rw [hg]
  simp only [hfound]

/-- A rejected announcement: the registry is untouched. -/
theorem announce_invalid (cfg : Config) (st : TrackerState)
    (data : AnnounceData) (now : Nat)
    (herr : (validateAnnouncement cfg data now st.nonces).1 ≠ []) :
    announce cfg st data now =
      (.validationError (validateAnnouncement cfg data now st.nonces).1,
        { st with nonces := (validateAnnouncement cfg data now st.nonces).2 }) := by
  unfold announce
  rw [if_neg herr]

/-!
Claim C1: merge semantics of the upsert.
-/

/-- C1 counterexample: an upsert for the existing room `r1` supplying only
`status: "active"` does not succeed — it is rejected with the missing
mandatory-field errors and the registry is unchanged; moreover a valid
update supplying an explicit null for the nullable field
`player1WalletPuzzleHash` keeps the prior value instead of overwriting it
with null. -/
theorem c1_counterexample :
    (announce defaultConfig st1 dataOnlyStatus 3000).1 =
      .validationError
        ["Missing or invalid player1Name", "Missing or invalid player1WalletAddress",
         "Missing or invalid player1PeerId", "Missing or invalid appBaseUrl"] ∧
    (announce defaultConfig st1 dataOnlyStatus 3000).2.rooms = st1.rooms ∧
    (dataUpdate "r1").player1WalletPuzzleHash = .null ∧
    sampleRoom.player1WalletPuzzleHash = some "hash1" ∧
    (announce defaultConfig st1 (dataUpdate "r1") 3000).2.rooms.lookup "r1" =
      some { sampleRoom with status := "active", updatedAt := 3000 } ∧
    ({ sampleRoom with status := "active", updatedAt := 3000 } :
      Room).player1WalletPuzzleHash = some "hash1" := by
  decide

/-- C1 amended: an update must still pass full validation (mandatory fields
included); any announcement failing validation is rejected and the registry
is unchanged. A validated update for an existing roomId below capacity
succeeds in place: `createdAt` is preserved, `updatedAt` becomes now, and
only explicitly supplied fields overwrite — omitted (`undefined`) fields
keep their prior value; an explicit null overwrites for `gameType`, the
player2 fields, `stateChannelCoinId` and `activeGameId`, while for the
optional player1 fields (and for a falsy `status`) a null keeps the prior
value. -/
theorem c1_amended (cfg : Config) (st : TrackerState) (data : AnnounceData)
    (now : Nat) (rid : String) (room : Room)
    (hvalid : (validateAnnouncement cfg data now st.nonces).1 = [])
    (hrid : data.roomId = .val rid)
    (hlen : st.rooms.length < MAX_ROOMS)
    (hfound : st.rooms.lookup rid = some room) :
    ((announce cfg st data now).1 = .ok (updateRoom room data now) ∧
     (announce cfg st data now).2.rooms.lookup rid =
       some (updateRoom room data now) ∧
     (updateRoom room data now).createdAt = room.createdAt ∧
     (updateRoom room data now).updatedAt = now ∧
     (data.status = .undef → (updateRoom room data now).status = room.status) ∧
     (∀ sv, data.status = .val sv → sv ≠ "" →
       (updateRoom room data now).status = sv) ∧
     (data.gameType = .undef →
       (updateRoom room data now).gameType = room.gameType) ∧
     (data.gameType = .null → (updateRoom room data now).gameType = none) ∧
     (data.player2Name = .undef →
       (updateRoom room data now).player2Name = room.player2Name) ∧
     (data.player2Name = .null → (updateRoom room data now).player2Name = none) ∧
     (data.player1WalletPuzzleHash = .null →
       (updateRoom room data now).player1WalletPuzzleHash =
         room.player1WalletPuzzleHash) ∧
     (data.wagerAmount = .undef →
       (updateRoom room data now).wagerAmount = room.wagerAmount) ∧
     (data.stateChannelCoinId = .null →
       (updateRoom room data now).stateChannelCoinId = none)) ∧
    (∀ data2 : AnnounceData,
      (validateAnnouncement cfg data2 now st.nonces).1 ≠ [] →
        (announce cfg st data2 now).1 =
          .validationError (validateAnnouncement cfg data2 now st.nonces).1 ∧
        (announce cfg st data2 now).2.rooms = st.rooms) := by
  have hann := announce_valid_update cfg st data now rid room hvalid hrid hlen
    hfound
  constructor
  · refine ⟨by rw [hann], ?_, rfl, rfl, ?_, ?_, ?_, ?_, ?_, ?_, ?_, ?_, ?_⟩
    · rw [hann]
      exact lookup_updIfPresent_some _ hfound
    · intro h
      simp [updateRoom, JVal.strTruthy, h]
    · intro sv h hne
      simp [updateRoom, JVal.strTruthy, h, JVal.getStrD, beq_false_of_ne hne]
    · intro h
      simp [updateRoom, h]
    · intro h
      simp [updateRoom, h]
    · intro h
      simp [updateRoom, JVal.mergeOpt, h]
    · intro h
      simp [updateRoom, JVal.mergeOpt, h]
    · intro h
      simp [updateRoom, JVal.strTruthy, h]
    · intro h
      simp [updateRoom, h]
    · intro h
      simp [updateRoom, JVal.mergeOpt, h]
  · intro data2 herr
    rw [announce_invalid cfg st data2 now herr]
    exact ⟨rfl, rfl⟩

/-- Witness for C1 amended: the mandatory-field-complete status update on
the one-room registry. -/
theorem c1_amended_witness :
    (validateAnnouncement defaultConfig (dataUpdate "r1") 3000 st1.nonces).1 = [] ∧
    st1.rooms.length < MAX_ROOMS ∧
    (announce defaultConfig st1 (dataUpdate "r1") 3000).1 =
      .ok (updateRoom sampleRoom (dataUpdate "r1") 3000) ∧
    (announce defaultConfig st1 (dataUpdate "r1") 3000).2.rooms.lookup "r1" =
      some (updateRoom sampleRoom (dataUpdate "r1") 3000) ∧
    (updateRoom sampleRoom (dataUpdate "r1") 3000).createdAt =
      sampleRoom.createdAt ∧
    (updateRoom sampleRoom (dataUpdate "r1") 3000).updatedAt = 3000 ∧
    (updateRoom sampleRoom (dataUpdate "r1") 3000).player1WalletPuzzleHash =
      sampleRoom.player1WalletPuzzleHash := by
  have h := c1_amended defaultConfig st1 (dataUpdate "r1") 3000 "r1" sampleRoom
    (by decide) rfl (by decide) (by decide)
  exact ⟨by decide, by decide, h.1.1, h.1.2.1, h.1.2.2.1, h.1.2.2.2.1,
    h.1.2.2.2.2.2.2.2.2.2.2.1 rfl⟩

/-!
The capacity-eviction pick: the first-in-insertion-order entry among those
with minimal createdAt, as produced by the stable ascending sort.
-/

theorem foldl_pick_mem (p : String × Room) (l : List (String × Room)) :
    l.foldl (fun best q => if q.2.createdAt < best.2.createdAt then q else best) p
      ∈ p :: l := by
  induction l generalizing p with
  | nil => exact List.mem_singleton.mpr rfl
  | cons x rest ih =>
      simp only [List.foldl_cons]
      by_cases hc : x.2.createdAt < p.2.createdAt
      · rw [if_pos hc]
        exact List.mem_cons_of_mem p (ih x)
      · rw [if_neg hc]
        rcases List.mem_cons.mp (ih p) with he | hm
        · exact List.mem_cons.mpr (Or.inl he)
        · exact List.mem_cons_of_mem p (List.mem_cons_of_mem x hm)

theorem foldl_pick_min (l : List (String × Room)) :
    ∀ (p : String × Room), ∀ x ∈ p :: l,
      (l.foldl (fun best q => if q.2.createdAt < best.2.createdAt then q else best)
        p).2.createdAt ≤ x.2.createdAt := by
  induction l with
  | nil =>
      intro p x hx
      have he := List.mem_singleton.mp hx
      rw [he]
      exact le_rfl
  | cons y rest ih =>
      intro p x hx
      simp only [List.foldl_cons]
      by_cases hc : y.2.createdAt < p.2.createdAt
      · rw [if_pos hc]
        rcases List.mem_cons.mp hx with he | hx2
        · have h1 := ih y y (List.mem_cons_self _ _)
          rw [he]
          omega
        · rcases List.mem_cons.mp hx2 with he2 | hx3
          · have h1 := ih y y (List.mem_cons_self _ _)
            rw [he2]
            exact h1
          · exact ih y x (List.mem_cons_of_mem _ hx3)
      · rw [if_neg hc]
        rcases List.mem_cons.mp hx with he | hx2
        · have h1 := ih p p (List.mem_cons_self _ _)
          rw [he]
          exact h1
        · rcases List.mem_cons.mp hx2 with he2 | hx3
          · have h1 := ih p p (List.mem_cons_self _ _)
            rw [he2]
            omega
          · exact ih p x (List.mem_cons_of_mem _ hx3)

/-- The key returned by `oldestRoomKey` names an entry of the registry whose
creation time is minimal. -/
theorem oldestRoomKey_mem_min {rooms : List (String × Room)} {k : String}
    (h : oldestRoomKey rooms = some k) :
    ∃ r, (k, r) ∈ rooms ∧ ∀ x ∈ rooms, r.createdAt ≤ x.2.createdAt := by
  cases rooms with
  | nil => simp [oldestRoomKey] at h
  | cons p rest =>
      simp only [oldestRoomKey, Option.some.injEq] at h
      have hqmem := foldl_pick_mem p rest
      have hqmin := foldl_pick_min rest p
      refine ⟨(rest.foldl
        (fun best q => if q.2.createdAt < best.2.createdAt then q else best)
        p).2, ?_, hqmin⟩
      have heta : (k, (rest.foldl
          (fun best q => if q.2.createdAt < best.2.createdAt then q else best)
            p).2) = rest.foldl
          (fun best q => if q.2.createdAt < best.2.createdAt then q else best) p := by
        rw [← h]
      rw [heta]
      exact hqmem

theorem oldestRoomKey_isSome {rooms : List (String × Room)}
    (h : rooms ≠ []) : ∃ k, oldestRoomKey rooms = some k := by
  cases rooms with
  | nil => exact absurd rfl h
  | cons p rest => exact ⟨_, rfl⟩

theorem mem_unique_key {α : Type} {m : List (String × α)} {k : String}
    {v w : α} (h1 : (k, v) ∈ m) (h2 : (k, w) ∈ m)
    (hnd : (m.map Prod.fst).Nodup) : v = w := by
  have e1 := lookup_of_mem_nodup h1 hnd
  have e2 := lookup_of_mem_nodup h2 hnd
  rw [e1] at e2
  exact Option.some.inj e2

theorem length_delAssoc_nodup {α : Type} {k : String} {v : α}
    {m : List (String × α)} (hmem : (k, v) ∈ m)
    (hnd : (m.map Prod.fst).Nodup) :
    (delAssoc k m).length = m.length - 1 := by
  induction m with
  | nil => simp at hmem
  | cons p rest ih =>
      rcases p with ⟨k1, v1⟩
      simp only [List.map_cons, List.nodup_cons] at hnd
      by_cases hk : k1 = k
      · subst hk
        have hrest : delAssoc k1 rest = rest := by
          apply List.filter_eq_self.mpr
          intro q hq
          have : q.1 ≠ k1 := by
            intro he
            exact hnd.1 (List.mem_map.mpr ⟨q, hq, he⟩)
          simp [beq_false_of_ne this]
        have hhead : delAssoc k1 ((k1, v1) :: rest) = delAssoc k1 rest := by
          simp [delAssoc, List.filter_cons]
        rw [hhead, hrest]
        simp
      · have hb : (k1 == k) = false := beq_false_of_ne hk
        have hmem2 : (k, v) ∈ rest := by
          rcases List.mem_cons.mp hmem with he | hm
          · cases he
            exact absurd rfl hk
          · exact hm
        have hlen := ih hmem2 hnd.2
        have hpos : 1 ≤ rest.length :=
          List.length_pos.mpr (List.ne_nil_of_mem hmem2)
        have hhead : delAssoc k ((k1, v1) :: rest) =
            (k1, v1) :: delAssoc k rest := by
          simp [delAssoc, List.filter_cons, hb]
        rw [hhead]
        simp only [List.length_cons]
        omega

theorem lookup_none_delAssoc {α : Type} {m : List (String × α)}
    {k k0 : String} (h : m.lookup k = none) :
    (delAssoc k0 m).lookup k = none := by
  rw [lookup_eq_none_iff] at h ⊢
  intro p hp
  exact h p (mem_delAssoc hp)

theorem lookup_append_some {α : Type} {l1 : List (String × α)}
    (l2 : List (String × α)) {k : String} {v : α} (h : l1.lookup k = some v) :
    (l1 ++ l2).lookup k = some v := by
  induction l1 with
  | nil => simp [List.lookup] at h
  | cons p rest ih =>
      rcases p with ⟨k1, v1⟩
      by_cases hk : k = k1
      · subst hk
        simp only [List.lookup, beq_self_eq_true] at h ⊢
        simpa using h
      · have hb : (k == k1) = false := beq_false_of_ne hk
        simp only [List.lookup, hb] at h
        simp only [List.cons_append, List.lookup, hb]
        exact ih h

/-!
Claim C4: what capacity eviction does on the write path when the announced
roomId already exists.
-/

set_option maxRecDepth 8000 in
/-- C4 counterexample: with the registry at `MAX_ROOMS`, a validated upsert
for the existing room `room50` still evicts `room0`, the oldest-by-createdAt
record — capacity eviction is not restricted to brand-new insertions. -/
theorem c4_counterexample :
    st100.rooms.length = MAX_ROOMS ∧
    st100.rooms.lookup "room50" = some (mkRoomN 50) ∧
    st100.rooms.lookup "room0" = some (mkRoomN 0) ∧
    (announce defaultConfig st100 (dataUpdate "room50") 5000).1 =
      .ok (updateRoom (mkRoomN 50) (dataUpdate "room50") 5000) ∧
    (announce defaultConfig st100 (dataUpdate "room50")
        5000).2.rooms.lookup "room0" = none := by
  refine ⟨by decide, by decide, by decide, by decide, by decide⟩

/-- C4 amended: the capacity check of POST /announce runs on every validated
announcement, before the existence lookup: when the registry holds at least
`MAX_ROOMS` records, an upsert whose roomId already exists (and is not
itself the oldest) still evicts the single oldest-by-createdAt record, the
updated room stays present, and the registry shrinks by one. -/
theorem c4_amended (cfg : Config) (st : TrackerState) (data : AnnounceData)
    (now : Nat) (rid : String) (room : Room)
    (hvalid : (validateAnnouncement cfg data now st.nonces).1 = [])
    (hrid : data.roomId = .val rid)
    (hsize : MAX_ROOMS ≤ st.rooms.length)
    (hfound : st.rooms.lookup rid = some room)
    (hnd : (st.rooms.map Prod.fst).Nodup)
    (hne : oldestRoomKey st.rooms ≠ some rid) :
    (∀ k, oldestRoomKey st.rooms = some k →
      (announce cfg st data now).2.rooms.lookup k = none ∧
      ∃ r, (k, r) ∈ st.rooms ∧ ∀ x ∈ st.rooms, r.createdAt ≤ x.2.createdAt) ∧
    (announce cfg st data now).2.rooms.lookup rid =
      some (updateRoom room data now) ∧
    (announce cfg st data now).2.rooms.length = st.rooms.length - 1 := by
  have hnil : st.rooms ≠ [] := by
    intro he
    rw [he] at hsize
    simp [MAX_ROOMS] at hsize
  rcases oldestRoomKey_isSome hnil with ⟨k0, hk0⟩
  have hridk0 : rid ≠ k0 := by
    intro he
    rw [he] at hne
    exact hne hk0
  have hev : evictOldest st.rooms = delAssoc k0 st.rooms := by
    unfold evictOldest
    rw [hk0]
  have hfound2 : (evictOldest st.rooms).lookup rid = some room := by
    rw [hev, lookup_delAssoc_ne _ hridk0]
    exact hfound
  have hann := announce_valid_atCap_update cfg st data now rid room hvalid hrid
    hsize hfound2
  refine ⟨?_, ?_, ?_⟩
  · intro k hk
    have hkk0 : k = k0 := Option.some.inj (hk ▸ hk0)
    subst hkk0
    refine ⟨?_, oldestRoomKey_mem_min hk⟩
    rw [hann]
    show (updIfPresent rid (updateRoom room data now)
      (evictOldest st.rooms)).lookup k = none
    apply lookup_updIfPresent_none
    rw [hev]
    exact lookup_delAssoc_self _ _
  · rw [hann]
    exact lookup_updIfPresent_some _ hfound2
  · rw [hann]
    show (updIfPresent rid (updateRoom room data now)
      (evictOldest st.rooms)).length = st.rooms.length - 1
    rw [length_updIfPresent, hev]
    rcases oldestRoomKey_mem_min hk0 with ⟨r0, hr0mem, -⟩
    exact length_delAssoc_nodup hr0mem hnd

set_option maxRecDepth 8000 in
/-- Witness for C4 amended at the full-registry fixture. -/
theorem c4_amended_witness :
    MAX_ROOMS ≤ st100.rooms.length ∧
    st100.rooms.lookup "room50" = some (mkRoomN 50) ∧
    oldestRoomKey st100.rooms = some "room0" ∧
    (announce defaultConfig st100 (dataUpdate "room50")
        5000).2.rooms.lookup "room0" = none ∧
    (announce defaultConfig st100 (dataUpdate "room50")
        5000).2.rooms.lookup "room50" =
      some (updateRoom (mkRoomN 50) (dataUpdate "room50") 5000) ∧
    (announce defaultConfig st100 (dataUpdate "room50") 5000).2.rooms.length =
      st100.rooms.length - 1 := by
  have h := c4_amended defaultConfig st100 (dataUpdate "room50") 5000 "room50"
    (mkRoomN 50) (by decide) rfl (by decide) (by decide) (by decide) (by decide)
  exact ⟨by decide, by decide, by decide, (h.1 "room0" (by decide)).1, h.2.1,
    h.2.2⟩

/-!
Claim C2: capacity eviction on inserting a brand-new room, and the size
bound over every operation.
-/

/-- Validation passing forces the roomId to be a present string. -/
theorem roomId_val_of_valid {cfg : Config} {data : AnnounceData} {now : Nat}
    {nonces : List String}
    (h : (validateAnnouncement cfg data now nonces).1 = []) :
    ∃ s, data.roomId = .val s := by
  have hr : roomIdErrors data.roomId = [] := by
    unfold validateAnnouncement at h
    rcases List.append_eq_nil.mp h with ⟨h1, -⟩
    rcases List.append_eq_nil.mp h1 with ⟨h2, -⟩
    rcases List.append_eq_nil.mp h2 with ⟨h3, -⟩
    rcases List.append_eq_nil.mp h3 with ⟨h4, -⟩
    rcases List.append_eq_nil.mp h4 with ⟨h5, -⟩
    rcases List.append_eq_nil.mp h5 with ⟨h6, -⟩
    rcases List.append_eq_nil.mp h6 with ⟨h7, -⟩
    rcases List.append_eq_nil.mp h7 with ⟨h8, -⟩
    rcases List.append_eq_nil.mp h8 with ⟨h9, -⟩
    rcases List.append_eq_nil.mp h9 with ⟨h10, -⟩
    rcases List.append_eq_nil.mp h10 with ⟨h11, -⟩
    rcases List.append_eq_nil.mp h11 with ⟨h12, -⟩
    rcases List.append_eq_nil.mp h12 with ⟨h13, -⟩
    rcases List.append_eq_nil.mp h13 with ⟨h14, -⟩
    rcases List.append_eq_nil.mp h14 with ⟨h15, -⟩
    rcases List.append_eq_nil.mp h15 with ⟨h16, -⟩
    rcases List.append_eq_nil.mp h16 with ⟨h17, -⟩
    rcases List.append_eq_nil.mp h17 with ⟨h18, -⟩
    exact h18
  cases hd : data.roomId with
  | undef => rw [hd] at hr; simp [roomIdErrors] at hr
  | null => rw [hd] at hr; simp [roomIdErrors] at hr
  | val s => exact ⟨s, rfl⟩

/-- POST /announce never grows the registry beyond `MAX_ROOMS`. -/
theorem announce_length_le (cfg : Config) (st : TrackerState)
    (data : AnnounceData) (now : Nat) (h : st.rooms.length ≤ MAX_ROOMS) :
    (announce cfg st data now).2.rooms.length ≤ MAX_ROOMS := by
  by_cases hv : (validateAnnouncement cfg data now st.nonces).1 = []
  · rcases roomId_val_of_valid hv with ⟨s, hs⟩
    by_cases hcap : MAX_ROOMS ≤ st.rooms.length
    · have hnil : st.rooms ≠ [] := by
        intro he
        rw [he] at hcap
        simp [MAX_ROOMS] at hcap
      rcases oldestRoomKey_isSome hnil with ⟨k0, hk0⟩
      have hev : evictOldest st.rooms = delAssoc k0 st.rooms := by
        unfold evictOldest
        rw [hk0]
      rcases oldestRoomKey_mem_min hk0 with ⟨r0, hr0mem, -⟩
      have hlt : (evictOldest st.rooms).length < st.rooms.length := by
        rw [hev]
        exact length_delAssoc_of_mem hr0mem
      cases hlk : (evictOldest st.rooms).lookup s with
      | some room =>
          rw [announce_valid_atCap_update cfg st data now s room hv hs hcap hlk]
          show (updIfPresent s (updateRoom room data now)
            (evictOldest st.rooms)).length ≤ MAX_ROOMS
          rw [length_updIfPresent]
          omega
      | none =>
          rw [announce_valid_atCap_create cfg st data now s hv hs hcap hlk]
          show (evictOldest st.rooms ++ [(s, createRoom data now)]).length ≤
            MAX_ROOMS
          rw [List.length_append]
          simp only [List.length_singleton]
          omega
    · have hlen : st.rooms.length < MAX_ROOMS := Nat.lt_of_not_le hcap
      cases hlk : st.rooms.lookup s with
      | some room =>
          rw [announce_valid_update cfg st data now s room hv hs hlen hlk]
          show (updIfPresent s (updateRoom room data now) st.rooms).length ≤
            MAX_ROOMS
          rw [length_updIfPresent]
          omega
      | none =>
          rw [announce_valid_create cfg st data now s hv hs hlen hlk]
          show (st.rooms ++ [(s, createRoom data now)]).length ≤ MAX_ROOMS
          rw [List.length_append]
          simp only [List.length_singleton]
          omega
  · rw [announce_invalid cfg st data now hv]
    exact h

/-- The read sweep never grows the registry. -/
theorem getAnnounce_length_le (cfg : Config) (st : TrackerState)
    (ps : QueryParams) (now : Nat) (h : st.rooms.length ≤ MAX_ROOMS) :
    (getAnnounce cfg st ps now).2.rooms.length ≤ MAX_ROOMS :=
  le_trans (List.length_filter_le _ _) h

/-- The scrape sweep never grows the registry. -/
theorem scrape_length_le (cfg : Config) (st : TrackerState) (now : Nat)
    (h : st.rooms.length ≤ MAX_ROOMS) :
    (scrape cfg st now).2.rooms.length ≤ MAX_ROOMS :=
  le_trans (List.length_filter_le _ _) h

/-- The periodic tick keeps the registry at or below `MAX_ROOMS`. -/
theorem tick_length_le (cfg : Config) (rooms : List (String × Room))
    (now : Nat) (h : rooms.length ≤ MAX_ROOMS) :
    (roomCleanupTick cfg rooms now).length ≤ MAX_ROOMS := by
  unfold roomCleanupTick
  have h1 : (cleanExpiredRooms cfg rooms now).length ≤ rooms.length :=
    List.length_filter_le _ _
  rw [if_neg (by omega)]
  omega

/-- C2: at size `MAX_ROOMS`, a validated announcement of a brand-new roomId
(with distinct keys and distinct creation times) evicts exactly the single
room with the smallest `createdAt`: the new room is present, the minimal
room is gone, every other room is untouched, and the size is again exactly
`MAX_ROOMS`; moreover, from any state within the bound, announce, query,
scrape and the periodic tick all keep the size at or below `MAX_ROOMS`. -/
theorem c2_capacity (cfg : Config) (st : TrackerState) (data : AnnounceData)
    (now : Nat) (rid : String)
    (hvalid : (validateAnnouncement cfg data now st.nonces).1 = [])
    (hrid : data.roomId = .val rid)
    (hsize : st.rooms.length = MAX_ROOMS)
    (hnew : st.rooms.lookup rid = none)
    (hnd : (st.rooms.map Prod.fst).Nodup)
    (hcreated : (st.rooms.map (fun p => p.2.createdAt)).Nodup) :
    (announce cfg st data now).2.rooms.length = MAX_ROOMS ∧
    (announce cfg st data now).2.rooms.lookup rid = some (createRoom data now) ∧
    (∀ p ∈ st.rooms, (∀ q ∈ st.rooms, p.2.createdAt ≤ q.2.createdAt) →
      (announce cfg st data now).2.rooms.lookup p.1 = none) ∧
    (∀ p ∈ st.rooms, (∃ q ∈ st.rooms, q.2.createdAt < p.2.createdAt) →
      (announce cfg st data now).2.rooms.lookup p.1 = some p.2) ∧
    (∀ (st2 : TrackerState) (data2 : AnnounceData) (ps : QueryParams)
      (now2 : Nat), st2.rooms.length ≤ MAX_ROOMS →
        (announce cfg st2 data2 now2).2.rooms.length ≤ MAX_ROOMS ∧
        (getAnnounce cfg st2 ps now2).2.rooms.length ≤ MAX_ROOMS ∧
        (scrape cfg st2 now2).2.rooms.length ≤ MAX_ROOMS ∧
        (roomCleanupTick cfg st2.rooms now2).length ≤ MAX_ROOMS) := by
  have hcap : MAX_ROOMS ≤ st.rooms.length := le_of_eq hsize.symm
  have hnil : st.rooms ≠ [] := by
    intro he
    rw [he] at hsize
    simp [MAX_ROOMS] at hsize
  rcases oldestRoomKey_isSome hnil with ⟨k0, hk0⟩
  have hev : evictOldest st.rooms = delAssoc k0 st.rooms := by
    unfold evictOldest
    rw [hk0]
  rcases oldestRoomKey_mem_min hk0 with ⟨r0, hr0mem, hr0min⟩
  have hk0rid : k0 ≠ rid := by
    intro he
    exact (lookup_eq_none_iff st.rooms rid).mp hnew (k0, r0) hr0mem he
  have hlknew : (evictOldest st.rooms).lookup rid = none := by
    rw [hev]
    exact lookup_none_delAssoc hnew
  have hann := announce_valid_atCap_create cfg st data now rid hvalid hrid hcap
    hlknew
  refine ⟨?_, ?_, ?_, ?_, ?_⟩
  · rw [hann]
    show (evictOldest st.rooms ++ [(rid, createRoom data now)]).length = MAX_ROOMS
    rw [List.length_append, hev, length_delAssoc_nodup hr0mem hnd]
    simp only [List.length_singleton]
    rw [hsize]
    decide
  · rw [hann]
    show (evictOldest st.rooms ++ [(rid, createRoom data now)]).lookup rid =
      some (createRoom data now)
    rw [lookup_append_none _ hlknew]
    simp [List.lookup]
  · intro p hp hmin
    have hpcr : p.2.createdAt = r0.createdAt :=
      le_antisymm (hmin (k0, r0) hr0mem) (hr0min p hp)
    have hpeq : p = (k0, r0) := by
      apply List.inj_on_of_nodup_map hcreated hp hr0mem
      exact hpcr
    rw [hann]
    show (evictOldest st.rooms ++ [(rid, createRoom data now)]).lookup p.1 = none
    rw [hpeq]
    have hl1 : (evictOldest st.rooms).lookup k0 = none := by
      rw [hev]
      exact lookup_delAssoc_self _ _
    rw [lookup_append_none _ hl1]
    simp [List.lookup, beq_false_of_ne hk0rid]
  · intro p hp hlt
    have hpne : p.1 ≠ k0 := by
      intro he
      have hpmem : (k0, p.2) ∈ st.rooms := by
        rw [← he]
        rw [Prod.mk.eta]
        exact hp
      have hpr0 : p.2 = r0 := mem_unique_key hpmem hr0mem hnd
      rcases hlt with ⟨q, hq, hqlt⟩
      have := hr0min q hq
      rw [← hpr0] at this
      omega
    rw [hann]
    show (evictOldest st.rooms ++ [(rid, createRoom data now)]).lookup p.1 =
      some p.2
    have hl1 : (evictOldest st.rooms).lookup p.1 = some p.2 := by
      rw [hev, lookup_delAssoc_ne _ hpne]
      apply lookup_of_mem_nodup _ hnd
      rw [Prod.mk.eta]
      exact hp
    exact lookup_append_some _ hl1
  · intro st2 data2 ps now2 hb
    exact ⟨announce_length_le cfg st2 data2 now2 hb,
      getAnnounce_length_le cfg st2 ps now2 hb,
      scrape_length_le cfg st2 now2 hb,
      tick_length_le cfg st2.rooms now2 hb⟩

set_option maxRecDepth 8000 in
/-- Witness for C2 at the full-registry fixture: creating a brand-new room
evicts exactly the oldest room `room0`, keeps `room1`, and the size stays at
`MAX_ROOMS`. -/
theorem c2_capacity_witness :
    st100.rooms.length = MAX_ROOMS ∧
    st100.rooms.lookup "newroom" = none ∧
    (announce defaultConfig st100 (dataCreate "newroom") 5000).2.rooms.length =
      MAX_ROOMS ∧
    (announce defaultConfig st100 (dataCreate "newroom")
        5000).2.rooms.lookup "newroom" =
      some (createRoom (dataCreate "newroom") 5000) ∧
    (announce defaultConfig st100 (dataCreate "newroom")
        5000).2.rooms.lookup "room0" = none ∧
    (announce defaultConfig st100 (dataCreate "newroom")
        5000).2.rooms.lookup "room1" = some (mkRoomN 1) := by
  have h := c2_capacity defaultConfig st100 (dataCreate "newroom") 5000
    "newroom" (by decide) rfl (by decide) (by decide) (by decide) (by decide)
  refine ⟨by decide, by decide, h.1, h.2.1, ?_, ?_⟩
  · exact h.2.2.1 ("room0", mkRoomN 0) (by decide) (by decide)
  · exact h.2.2.2.1 ("room1", mkRoomN 1) (by decide)
      ⟨("room0", mkRoomN 0), by decide, by decide⟩

end GamingTracker
